import Mathlib

/-!
Verification of the render-reconciliation core and the ui reducer of the
wireframe editor.

The TypeScript sources embedded here are `src/wireframes/renderer/editor.tsx`
(diagram flattening, the reconciliation pass `renderDiagram`, and the mutable
`ShapeRef` record) and `src/wireframes/model/actions/ui.ts` (the `ui` reducer).
The diagram data model (`Diagram`, `DiagramShape`, `DiagramGroup`), the
`Renderer` plugin interface, the svg scene surface and `UIState` are declared
outside the given sources and are modelled from the specification where noted.

Modelling conventions: the immutable TS model objects become plain Lean values,
so value equality of a `DiagramShape` models reference identity of the
corresponding immutable TS object; the mutable svg scene root becomes the list
of attached element ids in insertion (= paint) order; renderer invocations are
recorded in an explicit log so that claims about "render is (not) called" are
expressible; a thrown exception becomes an `Option`/error flag that aborts the
pass and keeps all state mutated so far.
-/

/-- Modelled from the spec: `DiagramShape` lives in `@app/wireframes/model`,
outside the given sources. Per §3 a Shape is a leaf item carrying a stable
string id, a renderer key selecting a Renderer from the registry, and opaque
appearance/geometry fields (`data` stands for those); it is an immutable value,
replaced wholesale on any change, so value equality models reference identity
of the TS object. -/
structure DiagramShape where
  id : String
  renderer : String
  data : Nat
deriving DecidableEq

/-- Modelled from the spec: the `DiagramItem` variants (§3): a Shape leaf or a
Group holding an ordered list of child item ids. -/
inductive DiagramItem where
  | shape (s : DiagramShape)
  | group (childIds : List String)
deriving DecidableEq

/-- Modelled from the spec: a `Diagram` (§3) holds an ordered sequence of root
item ids and a mapping from id to item (an association list here). -/
structure Diagram where
  rootIds : List String
  items : List (String × DiagramItem)
deriving DecidableEq

/-- Association-list lookup: the first binding of the key, if any.  Models both
`diagram.items.get(id)` and JS object property reads on the ref tables. -/
def alFind {α β : Type} [DecidableEq α] : List (α × β) → α → Option β
  | [], _ => none
  | p :: t, k => if p.1 = k then some p.2 else alFind t k

/-- `diagram.items.get(itemId)` in `getFlattenShapes`. -/
def Diagram.get (d : Diagram) (i : String) : Option DiagramItem :=
  alFind d.items i

/-- One sibling pass of the recursive `handleContainer` closure of
`Editor.getFlattenShapes`: process a frontier of item ids in order; a resolved
Shape is appended, a resolved Group is handed to `child` (the traversal one
nesting level down), an unresolved id contributes nothing. -/
def flattenStep (d : Diagram) (child : List String → List DiagramShape) :
    List String → List DiagramShape
  | [] => []
  | i :: rest =>
      (match Diagram.get d i with
       | some (DiagramItem.shape s) => [s]
       | some (DiagramItem.group cs) => child cs
       | none => []) ++ flattenStep d child rest

/-- The depth-first traversal of `Editor.getFlattenShapes`.  `fuel` bounds
group-nesting depth (the TS recursion is unbounded and would not terminate on
cyclic group references; recursing into a group consumes one unit, moving along
a sibling list consumes none). -/
def flattenIds (d : Diagram) : Nat → List String → List DiagramShape
  | 0 => fun _ => []
  | fuel + 1 => flattenStep d (flattenIds d fuel)

theorem flattenStep_congr (d d' : Diagram) (h : d.items = d'.items)
    (c c' : List String → List DiagramShape) (hc : ∀ l, c l = c' l) :
    ∀ ids, flattenStep d c ids = flattenStep d' c' ids := by
  have hg : ∀ i, Diagram.get d i = Diagram.get d' i := by
    intro i
    unfold Diagram.get
    rw [h]
  intro ids
  induction ids with
  | nil => rfl
  | cons i rest ih =>
    rw [flattenStep, flattenStep, hg i]
    cases hgi : Diagram.get d' i with
    | none => rw [ih]
    | some it =>
      cases it with
      | shape s => rw [ih]
      | group cs =>
        show c cs ++ _ = c' cs ++ _
        rw [hc cs, ih]

/-- The traversal consults the diagram only through its item mapping, never
through its root list. -/
theorem flattenIds_congr (d d' : Diagram) (h : d.items = d'.items) :
    ∀ fuel ids, flattenIds d fuel ids = flattenIds d' fuel ids := by
  intro fuel
  induction fuel with
  | zero => intro ids; rfl
  | succ n ih => exact flattenStep_congr d d' h _ _ ih

/-- Unfolding equation of `flattenIds` on a non-empty frontier with fuel
available: the head id's contribution precedes the rest of the frontier. -/
theorem flattenIds_succ_cons (d : Diagram) (fuel : Nat) (i : String)
    (rest : List String) :
    flattenIds d (fuel + 1) (i :: rest) =
      (match Diagram.get d i with
       | some (DiagramItem.shape s) => [s]
       | some (DiagramItem.group cs) => flattenIds d fuel cs
       | none => []) ++ flattenIds d (fuel + 1) rest := rfl

/-- `Editor.getFlattenShapes`: flatten the selected diagram (absent diagram
flattens to nothing).  The fuel `d.items.length + 1` covers any acyclic
diagram, whose group nesting depth is at most the number of items. -/
def getFlattenShapes (d : Option Diagram) : List DiagramShape :=
  match d with
  | none => []
  | some dg => flattenIds dg (dg.items.length + 1) dg.rootIds

section FlattenExample

def shapeS1 : DiagramShape := { id := "S1", renderer := "Button", data := 1 }

def shapeS2 : DiagramShape := { id := "S2", renderer := "Button", data := 2 }

def shapeS3 : DiagramShape := { id := "S3", renderer := "Button", data := 3 }

/-- The diagram of the flatten-order example: root ids `[G1, S1]`,
`G1.children = [S2, S3]`. -/
def exampleDiagram : Diagram :=
  { rootIds := ["G1", "S1"],
    items := [("G1", DiagramItem.group ["S2", "S3"]),
              ("S1", DiagramItem.shape shapeS1),
              ("S2", DiagramItem.shape shapeS2),
              ("S3", DiagramItem.shape shapeS3)] }

end FlattenExample

/-- C1: flattening traverses the frontier in order, depth-first pre-order: a
resolved Shape is appended before the rest of the frontier is processed, a
resolved Group's child ids are recursed into (in their stored order) before the
rest of the frontier; and on the concrete diagram with roots `[G1, S1]` and
`G1.children = [S2, S3]` the flattened sequence is `[S2, S3, S1]`. -/
theorem flatten_depth_first_preorder :
    (∀ (d : Diagram) (fuel : Nat) (i : String) (rest : List String) (s : DiagramShape),
      Diagram.get d i = some (DiagramItem.shape s) →
      flattenIds d (fuel + 1) (i :: rest) = s :: flattenIds d (fuel + 1) rest) ∧
    (∀ (d : Diagram) (fuel : Nat) (i : String) (rest : List String) (cs : List String),
      Diagram.get d i = some (DiagramItem.group cs) →
      flattenIds d (fuel + 1) (i :: rest) =
        flattenIds d fuel cs ++ flattenIds d (fuel + 1) rest) ∧
    getFlattenShapes (some exampleDiagram) = [shapeS2, shapeS3, shapeS1] := by
  refine ⟨?_, ?_, by decide⟩
  · intro d fuel i rest s h
    rw [flattenIds_succ_cons, h]
    rfl
  · intro d fuel i rest cs h
    rw [flattenIds_succ_cons, h]

/-- Witness for C1 at the example diagram: its root `G1` resolves to the group
`[S2, S3]`, and the theorem's group case plus its concrete clause apply. -/
theorem flatten_depth_first_preorder_w :
    flattenIds exampleDiagram 5 ("G1" :: ["S1"]) =
      flattenIds exampleDiagram 4 ["S2", "S3"] ++ flattenIds exampleDiagram 5 ["S1"] ∧
    getFlattenShapes (some exampleDiagram) = [shapeS2, shapeS3, shapeS1] :=
  ⟨flatten_depth_first_preorder.2.1 exampleDiagram 4 "G1" ["S1"] ["S2", "S3"] (by decide),
   flatten_depth_first_preorder.2.2⟩

/-- C6: an id in a traversal frontier (the root list or any group's child list)
that does not resolve in the item mapping contributes nothing: the flattening
equals the flattening with that id omitted, and the flatten step is a total
function (no error is raised). -/
theorem flatten_dangling_id_skipped :
    (∀ (d : Diagram) (fuel : Nat) (pre post : List String) (x : String),
      Diagram.get d x = none →
      flattenIds d fuel (pre ++ x :: post) = flattenIds d fuel (pre ++ post)) ∧
    (∀ (roots₁ roots₂ : List String) (x : String)
       (items : List (String × DiagramItem)),
      alFind items x = none →
      getFlattenShapes (some { rootIds := roots₁ ++ x :: roots₂, items := items }) =
        getFlattenShapes (some { rootIds := roots₁ ++ roots₂, items := items })) := by
  have main : ∀ (d : Diagram) (pre : List String) (fuel : Nat)
      (post : List String) (x : String),
      Diagram.get d x = none →
      flattenIds d fuel (pre ++ x :: post) = flattenIds d fuel (pre ++ post) := by
    intro d pre
    induction pre with
    | nil =>
      intro fuel post x h
      cases fuel with
      | zero => rfl
      | succ n =>
        show flattenIds d (n + 1) (x :: post) = flattenIds d (n + 1) post
        rw [flattenIds_succ_cons, h]
        rfl
    | cons p pre ih =>
      intro fuel post x h
      cases fuel with
      | zero => rfl
      | succ n =>
        show flattenIds d (n + 1) (p :: (pre ++ x :: post)) =
          flattenIds d (n + 1) (p :: (pre ++ post))
        rw [flattenIds_succ_cons, flattenIds_succ_cons, ih (n + 1) post x h]
  refine ⟨fun d fuel pre post x h => main d pre fuel post x h, ?_⟩
  intro roots₁ roots₂ x items h
  calc getFlattenShapes (some { rootIds := roots₁ ++ x :: roots₂, items := items })
      = flattenIds { rootIds := roots₁ ++ x :: roots₂, items := items }
          (items.length + 1) (roots₁ ++ x :: roots₂) := rfl
    _ = flattenIds { rootIds := roots₁ ++ x :: roots₂, items := items }
          (items.length + 1) (roots₁ ++ roots₂) :=
        main { rootIds := roots₁ ++ x :: roots₂, items := items }
          roots₁ (items.length + 1) roots₂ x h
    _ = flattenIds { rootIds := roots₁ ++ roots₂, items := items }
          (items.length + 1) (roots₁ ++ roots₂) :=
        flattenIds_congr { rootIds := roots₁ ++ x :: roots₂, items := items }
          { rootIds := roots₁ ++ roots₂, items := items } rfl _ _
    _ = getFlattenShapes (some { rootIds := roots₁ ++ roots₂, items := items }) := rfl

/-- Witness for C6: the example diagram with a dangling root id `GHOST`
flattens exactly as without it. -/
theorem flatten_dangling_id_skipped_w :
    getFlattenShapes (some { rootIds := ["G1"] ++ "GHOST" :: ["S1"],
                             items := exampleDiagram.items }) =
      getFlattenShapes (some { rootIds := ["G1"] ++ ["S1"],
                               items := exampleDiagram.items }) :=
  flatten_dangling_id_skipped.2 ["G1"] ["S1"] "GHOST" exampleDiagram.items (by decide)

/-!  The `ui` reducer of `src/wireframes/model/actions/ui.ts`. -/

/-- Modelled from the spec: `UIState` is declared in `@app/wireframes/model`,
outside the given sources.  It carries at least the four fields the `ui`
reducer touches (`zoom`, `selectedTab`, `showLeftSidebar`, `showRightSidebar`);
`rest` stands for any further fields, which the reducer never names. -/
structure UIState where
  zoom : Int
  selectedTab : String
  showLeftSidebar : Bool
  showRightSidebar : Bool
  rest : Nat
deriving DecidableEq

/-- The dispatched actions as seen by the `ui` reducer: one constructor per
action type whose case it handles (carrying the payload the creator attaches),
the two toast actions handled only by `toastMiddleware`, and `unhandled` for
every other action type reaching the default case. -/
inductive UIAction where
  | setZoom (zoomLevel : Int)
  | selectTab (tab : String)
  | toggleLeftSidebar
  | toggleRightSidebar
  | showInfoToast (text : String)
  | showErrorToast (text : String)
  | unhandled (type : String)
deriving DecidableEq

/-- The switch of the reducer returned by `ui(initialState)`. -/
def uiStep (state : UIState) (action : UIAction) : UIState :=
  match action with
  | UIAction.setZoom zoomLevel => { state with zoom := zoomLevel }
  | UIAction.selectTab tab => { state with selectedTab := tab }
  | UIAction.toggleLeftSidebar =>
      { state with showLeftSidebar := !state.showLeftSidebar }
  | UIAction.toggleRightSidebar =>
      { state with showRightSidebar := !state.showRightSidebar }
  | _ => state

/-- `ui(initialState)`: the reducer substitutes `initialState` for an absent
state before switching on the action. -/
def ui (initialState : UIState) (state : Option UIState) (action : UIAction) :
    UIState :=
  uiStep (state.getD initialState) action

/-- C10: each handled action type changes exactly its designated field of the
state (`SET_ZOOM` the zoom, `SELECT_TAB` the selected tab, the two toggles
their sidebar flag), leaving every other field unchanged, and every action
type the reducer does not handle returns the input state itself. -/
theorem ui_reducer_frame (init s : UIState) :
    (∀ z, (ui init (some s) (UIAction.setZoom z)).zoom = z ∧
      (ui init (some s) (UIAction.setZoom z)).selectedTab = s.selectedTab ∧
      (ui init (some s) (UIAction.setZoom z)).showLeftSidebar = s.showLeftSidebar ∧
      (ui init (some s) (UIAction.setZoom z)).showRightSidebar = s.showRightSidebar ∧
      (ui init (some s) (UIAction.setZoom z)).rest = s.rest) ∧
    (∀ t, (ui init (some s) (UIAction.selectTab t)).selectedTab = t ∧
      (ui init (some s) (UIAction.selectTab t)).zoom = s.zoom ∧
      (ui init (some s) (UIAction.selectTab t)).showLeftSidebar = s.showLeftSidebar ∧
      (ui init (some s) (UIAction.selectTab t)).showRightSidebar = s.showRightSidebar ∧
      (ui init (some s) (UIAction.selectTab t)).rest = s.rest) ∧
    ((ui init (some s) UIAction.toggleLeftSidebar).showLeftSidebar =
        !s.showLeftSidebar ∧
      (ui init (some s) UIAction.toggleLeftSidebar).zoom = s.zoom ∧
      (ui init (some s) UIAction.toggleLeftSidebar).selectedTab = s.selectedTab ∧
      (ui init (some s) UIAction.toggleLeftSidebar).showRightSidebar =
        s.showRightSidebar ∧
      (ui init (some s) UIAction.toggleLeftSidebar).rest = s.rest) ∧
    ((ui init (some s) UIAction.toggleRightSidebar).showRightSidebar =
        !s.showRightSidebar ∧
      (ui init (some s) UIAction.toggleRightSidebar).zoom = s.zoom ∧
      (ui init (some s) UIAction.toggleRightSidebar).selectedTab = s.selectedTab ∧
      (ui init (some s) UIAction.toggleRightSidebar).showLeftSidebar =
        s.showLeftSidebar ∧
      (ui init (some s) UIAction.toggleRightSidebar).rest = s.rest) ∧
    (∀ t, ui init (some s) (UIAction.showInfoToast t) = s) ∧
    (∀ t, ui init (some s) (UIAction.showErrorToast t) = s) ∧
    (∀ t, ui init (some s) (UIAction.unhandled t) = s) :=
  ⟨fun _ => ⟨rfl, rfl, rfl, rfl, rfl⟩,
   fun _ => ⟨rfl, rfl, rfl, rfl, rfl⟩,
   ⟨rfl, rfl, rfl, rfl, rfl⟩,
   ⟨rfl, rfl, rfl, rfl, rfl⟩,
   fun _ => rfl, fun _ => rfl, fun _ => rfl⟩

/-!  The scene surface, `ShapeRef` and the reconciliation pass of
`src/wireframes/renderer/editor.tsx`. -/

/-- A rendered scene element (`svg.Element`): identified by the id the scene
surface assigns at creation (`element.id()`), and carrying the shape value and
debug-marker flag it was rendered from. -/
structure Element where
  elemId : Nat
  shape : DiagramShape
  markers : Bool
deriving DecidableEq

/-- The mutable `ShapeRef` record: the resolved renderer (`none` models the
`undefined` a registry miss produces), the debug-marker flag fixed at
construction, the last-rendered shape (`shape`, initially `undefined`) and the
owned scene element (`renderedElement`, initially `undefined`). -/
structure ShapeRef where
  renderer : Option String
  showDebugMarkers : Bool
  shape : Option DiagramShape
  renderedElement : Option Element
deriving DecidableEq

/-- `ShapeRef.renderId`, i.e. `renderedElement.id()`.  The TS getter would
throw on an absent element; the reconciler only reads it on refs that hold one,
so the `none` branch is arbitrary. -/
def ShapeRef.renderId (r : ShapeRef) : Nat :=
  match r.renderedElement with
  | some e => e.elemId
  | none => 0

/-- The element id a ref currently owns, if any. -/
def elemOf (r : ShapeRef) : Option Nat :=
  r.renderedElement.map (fun e => e.elemId)

/-- `ShapeRef.remove()`: detach the rendered element from the scene if one
exists; the ref record itself is untouched. -/
def ShapeRef.remove (r : ShapeRef) (scene : List Nat) : List Nat :=
  match r.renderedElement with
  | some e => scene.filter (fun i => decide (i ≠ e.elemId))
  | none => scene

/-- `doc.add(element)`: attach an element to the scene root; an already
attached element is moved to the end (adoption), so the result always ends in
`i`. -/
def sceneAdd (scene : List Nat) (i : Nat) : List Nat :=
  scene.filter (fun j => decide (j ≠ i)) ++ [i]

/-- The result of one `ShapeRef.render` invocation: the updated ref and the
scene-side state it touched. -/
structure RenderOut where
  ref : ShapeRef
  scene : List Nat
  nextElemId : Nat
  renderLog : List (DiagramShape × Bool)
deriving DecidableEq

/-- Modelled from the spec: concrete `Renderer` implementations are plugins
outside the given sources; per §4.2 `render(shape, showDebugMarkers)` produces
one new scene element representing the shape.  The scene surface assigns the
next fresh element id. -/
def rendererRender (shape : DiagramShape) (markers : Bool) (nextElemId : Nat) :
    Element :=
  { elemId := nextElemId, shape := shape, markers := markers }

/-- `ShapeRef.render(shape)`: when the shape differs from `lastShape` by
identity or no element exists yet, bind the renderer to the scene root and
invoke `renderer.render` (recorded in the log; the produced element is attached
to the scene root); otherwise re-attach the existing element.  Either way the
ref's `shape` becomes the given shape.  `none` models the TypeError thrown by
`renderer.setContext` when the renderer is `undefined` (registry miss). -/
def ShapeRef.render (r : ShapeRef) (shape : DiagramShape) (scene : List Nat)
    (nextElemId : Nat) (renderLog : List (DiagramShape × Bool)) :
    Option RenderOut :=
  if r.shape ≠ some shape ∨ r.renderedElement = none then
    match r.renderer with
    | none => none
    | some _ =>
        let el := rendererRender shape r.showDebugMarkers nextElemId
        some { ref := { r with shape := some shape, renderedElement := some el },
               scene := scene ++ [el.elemId],
               nextElemId := nextElemId + 1,
               renderLog := renderLog ++ [(shape, r.showDebugMarkers)] }
  else
    some { ref := { r with shape := some shape },
           scene := sceneAdd scene r.renderId,
           nextElemId := nextElemId,
           renderLog := renderLog }

/-- The mutable fields of the `Editor` component together with the scene-side
state the pass touches: whether `initDiagramScope` has bound `diagramDoc`, the
scene root's attached element ids in insertion order, the fresh element-id
counter, the renderer-invocation log, and the two lookup tables. -/
structure EditorState where
  docBound : Bool
  scene : List Nat
  nextElemId : Nat
  renderLog : List (DiagramShape × Bool)
  shapeRefsById : List (String × ShapeRef)
  shapeRefsByRenderElement : List (Nat × ShapeRef)
deriving DecidableEq

/-- The props the pass reads: the renderer registry (keys with a registered
Renderer; the modelled renderers all behave as `rendererRender`), the selected
diagram, and the debug flag `!isProduction`. -/
structure EditorProps where
  registeredRenderers : List String
  selectedDiagram : Option Diagram
  debugMarkers : Bool
deriving DecidableEq

/-- JS object property write `table[k] = v`: update the binding in place if the
key exists, append it otherwise. -/
def alSet {α β : Type} [DecidableEq α] (l : List (α × β)) (k : α) (v : β) :
    List (α × β) :=
  if l.any (fun p => decide (p.1 = k)) then
    l.map (fun p => if p.1 = k then (k, v) else p)
  else l ++ [(k, v)]

/-- JS `delete table[k]`. -/
def alDel {α β : Type} [DecidableEq α] (l : List (α × β)) (k : α) :
    List (α × β) :=
  l.filter (fun p => decide (p.1 ≠ k))

/-- `new ShapeRef(doc, renderer, !isProduction)` with the renderer freshly
resolved from `rendererService.registeredRenderers[shape.renderer]`. -/
def newShapeRef (registry : List String) (key : String) (debug : Bool) :
    ShapeRef :=
  { renderer := if registry.contains key then some key else none,
    showDebugMarkers := debug, shape := none, renderedElement := none }

/-- One iteration of the first loop of `renderDiagram`: detach the ref's
element; if its id is no longer live, delete it from both lookup tables. -/
def pruneStep (live : List String) (st : EditorState) (e : String × ShapeRef) :
    EditorState :=
  let scene := e.2.remove st.scene
  if live.contains e.1 then { st with scene := scene }
  else
    { st with
      scene := scene
      shapeRefsById := alDel st.shapeRefsById e.1
      shapeRefsByRenderElement := alDel st.shapeRefsByRenderElement e.2.renderId }

/-- The first loop of `renderDiagram`, iterating over the entries of
`shapeRefsById`. -/
def pruneList (live : List String) : EditorState → List (String × ShapeRef) → EditorState
  | st, [] => st
  | st, e :: rest => pruneList live (pruneStep live st e) rest

/-- The whole prune pass of `renderDiagram`. -/
def prune (live : List String) (st : EditorState) : EditorState :=
  pruneList live st st.shapeRefsById

/-- The `let ref` binding opening the second loop of `renderDiagram`: the
existing ref for the shape's id, or a freshly constructed one. -/
def lookupOrNew (registry : List String) (debug : Bool) (st : EditorState)
    (shape : DiagramShape) : ShapeRef :=
  match alFind st.shapeRefsById shape.id with
  | some r => r
  | none => newShapeRef registry shape.renderer debug

/-- One iteration of the second loop of `renderDiagram`: look up or lazily
create the shape's ref, invoke `ref.render(shape)`, and re-register the ref in
both tables.  `none` propagates the exception out of `ref.render`. -/
def renderStep (registry : List String) (debug : Bool) (st : EditorState)
    (shape : DiagramShape) : Option EditorState :=
  let ref := lookupOrNew registry debug st shape
  match ref.render shape st.scene st.nextElemId st.renderLog with
  | none => none
  | some out =>
      some { st with
             scene := out.scene, nextElemId := out.nextElemId,
             renderLog := out.renderLog,
             shapeRefsByRenderElement :=
               alSet st.shapeRefsByRenderElement out.ref.renderId out.ref,
             shapeRefsById := alSet st.shapeRefsById shape.id out.ref }

/-- The second loop of `renderDiagram` over the flattened shapes.  A thrown
exception aborts the loop, keeping every mutation made so far; the flag records
whether the pass aborted. -/
def renderAll (registry : List String) (debug : Bool) :
    EditorState → List DiagramShape → EditorState × Bool
  | st, [] => (st, false)
  | st, s :: rest =>
      match renderStep registry debug st s with
      | none => (st, true)
      | some st' => renderAll registry debug st' rest

/-- `Editor.renderDiagram`: bail out while no scene document is bound;
otherwise flatten the diagram, prune stale refs, and render every flattened
shape in order. -/
def renderDiagram (p : EditorProps) (st : EditorState) : EditorState × Bool :=
  if st.docBound then
    let allShapes := getFlattenShapes p.selectedDiagram
    let live := allShapes.map (fun s => s.id)
    renderAll p.registeredRenderers p.debugMarkers (prune live st) allShapes
  else (st, false)

section ReconcileExample

def dShapeV1 : DiagramShape := { id := "A", renderer := "Button", data := 1 }

def dShapeV2 : DiagramShape := { id := "A", renderer := "Button", data := 2 }

def diagV1 : Diagram :=
  { rootIds := ["A"], items := [("A", DiagramItem.shape dShapeV1)] }

def diagV2 : Diagram :=
  { rootIds := ["A"], items := [("A", DiagramItem.shape dShapeV2)] }

def diagEmpty : Diagram := { rootIds := [], items := [] }

def propsV1 : EditorProps :=
  { registeredRenderers := ["Button"], selectedDiagram := some diagV1,
    debugMarkers := true }

def propsV2 : EditorProps :=
  { registeredRenderers := ["Button"], selectedDiagram := some diagV2,
    debugMarkers := true }

def propsEmpty : EditorProps :=
  { registeredRenderers := ["Button"], selectedDiagram := some diagEmpty,
    debugMarkers := true }

/-- The editor's state right after `initDiagramScope` bound a fresh document:
empty tables, empty scene. -/
def editorInit : EditorState :=
  { docBound := true, scene := [], nextElemId := 0, renderLog := [],
    shapeRefsById := [], shapeRefsByRenderElement := [] }

/-- State after a first reconcile pass rendering `dShapeV1`. -/
def passV1 : EditorState := (renderDiagram propsV1 editorInit).1

/-- State after a second pass in which the shape value was replaced
(`dShapeV2`, same id, different value). -/
def passV2 : EditorState := (renderDiagram propsV2 passV1).1

/-- State after a third pass in which the shape id vanished. -/
def passGone : EditorState := (renderDiagram propsEmpty passV2).1

end ReconcileExample

/-- C9: a reconcile call before `initDiagramScope` bound a scene document is a
complete no-op: the state (both lookup tables, the scene, the counter, the
render log) is returned unchanged and no error occurs. -/
theorem render_skipped_until_doc_bound (p : EditorProps) (st : EditorState)
    (h : st.docBound = false) : renderDiagram p st = (st, false) := by
  unfold renderDiagram
  rw [h]
  simp

/-- Witness for C9: the initial state with no document bound. -/
theorem render_skipped_until_doc_bound_w :
    renderDiagram propsV1 { editorInit with docBound := false } =
      ({ editorInit with docBound := false }, false) :=
  render_skipped_until_doc_bound propsV1 { editorInit with docBound := false } rfl

/-- C4: `ShapeRef.render` with a shape that is not identical to `lastShape`,
or with no element rendered yet, binds the renderer and invokes
`renderer.render(shape, showDebugMarkers)` (appending to the invocation log),
attaches the freshly produced element and replaces the ref's element with it;
and concretely, replacing the shape value between two reconcile passes (same
id, new value) invokes render a second time and replaces the scene element. -/
theorem shaperef_render_replaces_element :
    (∀ (r : ShapeRef) (s : DiagramShape) (scene : List Nat) (n : Nat)
       (log : List (DiagramShape × Bool)) (rk : String),
      (r.shape ≠ some s ∨ r.renderedElement = none) →
      r.renderer = some rk →
      ShapeRef.render r s scene n log =
        some { ref := { r with
                        shape := some s
                        renderedElement := some (rendererRender s r.showDebugMarkers n) }
               scene := scene ++ [n]
               nextElemId := n + 1
               renderLog := log ++ [(s, r.showDebugMarkers)] }) ∧
    (renderDiagram propsV2 passV1).2 = false ∧
    passV2.renderLog = [(dShapeV1, true), (dShapeV2, true)] ∧
    passV2.scene = [1] ∧
    (alFind passV2.shapeRefsById "A").map elemOf = some (some 1) := by
  refine ⟨?_, by decide, by decide, by decide, by decide⟩
  intro r s scene n log rk h hr
  unfold ShapeRef.render
  rw [if_pos h, hr]
  rfl

/-- Witness for C4: a ref that rendered `dShapeV1` is handed `dShapeV2`; the
identity test fails and a full re-render is forced. -/
theorem shaperef_render_replaces_element_w :
    ShapeRef.render
        { renderer := some "Button", showDebugMarkers := true,
          shape := some dShapeV1,
          renderedElement := some (rendererRender dShapeV1 true 0) }
        dShapeV2 [] 1 [(dShapeV1, true)] =
      some { ref := { renderer := some "Button", showDebugMarkers := true,
                      shape := some dShapeV2,
                      renderedElement := some (rendererRender dShapeV2 true 1) }
             scene := [1]
             nextElemId := 2
             renderLog := [(dShapeV1, true), (dShapeV2, true)] } :=
  shaperef_render_replaces_element.1
    { renderer := some "Button", showDebugMarkers := true,
      shape := some dShapeV1,
      renderedElement := some (rendererRender dShapeV1 true 0) }
    dShapeV2 [] 1 [(dShapeV1, true)] "Button" (by decide) rfl

theorem filter_self_idem {α : Type} (p : α → Bool) (l : List α) :
    (l.filter p).filter p = l.filter p := by
  induction l with
  | nil => rfl
  | cons a t ih =>
    cases hpa : p a with
    | false => simp [List.filter_cons, hpa, ih]
    | true => simp [List.filter_cons, hpa, ih]

/-- The ref owning the element produced by the first example pass. -/
def refAfterV1 : ShapeRef :=
  { renderer := some "Button", showDebugMarkers := true,
    shape := some dShapeV1,
    renderedElement := some (rendererRender dShapeV1 true 0) }

/-- C8: `ShapeRef.remove` is a pure detach: a no-op when no element exists;
otherwise it removes exactly the owned element id from the scene, touching no
other attached element; the ref record itself (its `renderedElement` and
`shape` fields included) is untouched by construction, so a subsequent
`render` with the identical shape takes the cheap path: the very same ref and
element come back, re-attached, with no renderer invocation logged. -/
theorem shaperef_remove_pure_detach (r : ShapeRef) (scene : List Nat) :
    (r.renderedElement = none → ShapeRef.remove r scene = scene) ∧
    (∀ e, r.renderedElement = some e →
      e.elemId ∉ ShapeRef.remove r scene ∧
      ∀ i, i ≠ e.elemId → (i ∈ ShapeRef.remove r scene ↔ i ∈ scene)) ∧
    (∀ (s : DiagramShape) (e : Element) (n : Nat)
       (log : List (DiagramShape × Bool)),
      r.shape = some s → r.renderedElement = some e →
      ShapeRef.render r s (ShapeRef.remove r scene) n log =
        some { ref := r
               scene := ShapeRef.remove r scene ++ [e.elemId]
               nextElemId := n
               renderLog := log }) := by
  refine ⟨?_, ?_, ?_⟩
  · intro h
    unfold ShapeRef.remove
    rw [h]
  · intro e he
    unfold ShapeRef.remove
    rw [he]
    constructor
    · simp
    · intro i hi
      simp [List.mem_filter, hi]
  · intro s e n log hs hel
    have hcond : ¬(r.shape ≠ some s ∨ r.renderedElement = none) := by
      rw [hs, hel]
      simp
    have hid : r.renderId = e.elemId := by
      unfold ShapeRef.renderId
      rw [hel]
    have hremove : ShapeRef.remove r scene =
        scene.filter (fun i => decide (i ≠ e.elemId)) := by
      unfold ShapeRef.remove
      rw [hel]
    have href : { r with shape := some s } = r := by
      obtain ⟨a, b, c, d⟩ := r
      simp only at hs
      rw [hs]
    unfold ShapeRef.render
    rw [if_neg hcond, href, hid, hremove]
    unfold sceneAdd
    rw [filter_self_idem]

/-- Witness for C8: detaching the freshly rendered example element and handing
the same shape value back takes the cheap re-attach path. -/
theorem shaperef_remove_pure_detach_w :
    ShapeRef.render refAfterV1 dShapeV1 (ShapeRef.remove refAfterV1 [0]) 1
        [(dShapeV1, true)] =
      some { ref := refAfterV1
             scene := ShapeRef.remove refAfterV1 [0] ++ [0]
             nextElemId := 1
             renderLog := [(dShapeV1, true)] } :=
  (shaperef_remove_pure_detach refAfterV1 [0]).2.2 dShapeV1
    (rendererRender dShapeV1 true 0) 1 [(dShapeV1, true)] rfl rfl

/-!  Lookup-table lemmas. -/

theorem alFind_mem {α β : Type} [DecidableEq α] (l : List (α × β)) (k : α)
    (v : β) (h : alFind l k = some v) : (k, v) ∈ l := by
  induction l with
  | nil => simp [alFind] at h
  | cons p t ih =>
    rw [alFind] at h
    by_cases hp : p.1 = k
    · rw [if_pos hp] at h
      obtain ⟨p1, p2⟩ := p
      simp only at hp h
      have h2 : p2 = v := by injection h
      rw [← hp, ← h2]
      exact List.mem_cons_self _ _
    · rw [if_neg hp] at h
      exact List.mem_cons_of_mem p (ih h)

theorem alFind_append_right {α β : Type} [DecidableEq α]
    (l l₂ : List (α × β)) (k : α) (h : alFind l k = none) :
    alFind (l ++ l₂) k = alFind l₂ k := by
  induction l with
  | nil => rfl
  | cons p t ih =>
    rw [alFind] at h
    by_cases hp : p.1 = k
    · rw [if_pos hp] at h
      cases h
    · rw [if_neg hp] at h
      rw [List.cons_append, alFind, if_neg hp]
      exact ih h

theorem alFind_none_of_any_false {α β : Type} [DecidableEq α]
    (l : List (α × β)) (k : α)
    (h : l.any (fun p => decide (p.1 = k)) = false) : alFind l k = none := by
  induction l with
  | nil => rfl
  | cons p t ih =>
    rw [List.any_cons, Bool.or_eq_false_iff] at h
    rw [alFind, if_neg (by simpa using h.1)]
    exact ih h.2

theorem alFind_map_update_self {α β : Type} [DecidableEq α]
    (l : List (α × β)) (k : α) (v : β)
    (h : l.any (fun p => decide (p.1 = k)) = true) :
    alFind (l.map (fun p => if p.1 = k then (k, v) else p)) k = some v := by
  induction l with
  | nil => simp at h
  | cons p t ih =>
    rw [List.map_cons, alFind]
    by_cases hp : p.1 = k
    · rw [if_pos hp]
      simp
    · rw [if_neg hp, if_neg hp]
      rw [List.any_cons, Bool.or_eq_true] at h
      rcases h with h | h
      · simp [hp] at h
      · exact ih h

theorem alFind_map_update_ne {α β : Type} [DecidableEq α]
    (l : List (α × β)) (k k' : α) (v : β) (hne : k' ≠ k) :
    alFind (l.map (fun p => if p.1 = k then (k, v) else p)) k' = alFind l k' := by
  induction l with
  | nil => rfl
  | cons p t ih =>
    rw [List.map_cons, alFind, alFind]
    by_cases hp : p.1 = k
    · rw [if_pos hp]
      have hk : ¬(k = k') := fun h => hne h.symm
      have hp' : ¬(p.1 = k') := by
        rw [hp]
        exact hk
      rw [if_neg hk, if_neg hp']
      exact ih
    · rw [if_neg hp]
      by_cases hp' : p.1 = k'
      · rw [if_pos hp', if_pos hp']
      · rw [if_neg hp', if_neg hp']
        exact ih

theorem alFind_append_single_ne {α β : Type} [DecidableEq α]
    (l : List (α × β)) (k k' : α) (v : β) (hne : k' ≠ k) :
    alFind (l ++ [(k, v)]) k' = alFind l k' := by
  induction l with
  | nil =>
    show (if k = k' then some v else alFind ([] : List (α × β)) k') =
      alFind ([] : List (α × β)) k'
    rw [if_neg (fun h => hne h.symm)]
  | cons q t ih =>
    rw [List.cons_append, alFind, alFind]
    by_cases hq : q.1 = k'
    · rw [if_pos hq, if_pos hq]
    · rw [if_neg hq, if_neg hq]
      exact ih

theorem alFind_alSet_self {α β : Type} [DecidableEq α] (l : List (α × β))
    (k : α) (v : β) : alFind (alSet l k v) k = some v := by
  unfold alSet
  by_cases hany : (l.any fun p => decide (p.1 = k)) = true
  · rw [if_pos hany]
    exact alFind_map_update_self l k v hany
  · have hf : (l.any fun p => decide (p.1 = k)) = false := by
      cases hb : l.any fun p => decide (p.1 = k)
      · rfl
      · exact absurd hb hany
    rw [if_neg hany]
    rw [alFind_append_right l _ k (alFind_none_of_any_false l k hf)]
    simp [alFind]

theorem alFind_alSet_ne {α β : Type} [DecidableEq α] (l : List (α × β))
    (k k' : α) (v : β) (hne : k' ≠ k) :
    alFind (alSet l k v) k' = alFind l k' := by
  unfold alSet
  by_cases hany : (l.any fun p => decide (p.1 = k)) = true
  · rw [if_pos hany]
    exact alFind_map_update_ne l k k' v hne
  · rw [if_neg hany]
    exact alFind_append_single_ne l k k' v hne

theorem alFind_filter_none {α β : Type} [DecidableEq α] (l : List (α × β))
    (k : α) (p : α × β → Bool) (h : alFind l k = none) :
    alFind (l.filter p) k = none := by
  induction l with
  | nil => rfl
  | cons q t ih =>
    rw [alFind] at h
    by_cases hq : q.1 = k
    · rw [if_pos hq] at h
      cases h
    · rw [if_neg hq] at h
      rw [List.filter_cons]
      by_cases hpq : p q = true
      · rw [if_pos hpq, alFind, if_neg hq]
        exact ih h
      · rw [if_neg hpq]
        exact ih h

theorem alFind_alDel_self {α β : Type} [DecidableEq α] (l : List (α × β))
    (k : α) : alFind (alDel l k) k = none := by
  induction l with
  | nil => rfl
  | cons q t ih =>
    unfold alDel at ih ⊢
    rw [List.filter_cons]
    by_cases hq : q.1 = k
    · rw [if_neg (by simp [hq])]
      exact ih
    · rw [if_pos (by simp [hq])]
      rw [alFind, if_neg hq]
      exact ih

theorem alFind_alDel_ne {α β : Type} [DecidableEq α] (l : List (α × β))
    (k k' : α) (hne : k' ≠ k) : alFind (alDel l k) k' = alFind l k' := by
  induction l with
  | nil => rfl
  | cons q t ih =>
    unfold alDel at ih ⊢
    rw [List.filter_cons]
    by_cases hq : q.1 = k
    · rw [if_neg (by simp [hq])]
      rw [ih, alFind, if_neg (by rw [hq]; exact fun h => hne h.symm)]
    · rw [if_pos (by simp [hq])]
      rw [alFind, alFind]
      by_cases hq' : q.1 = k'
      · rw [if_pos hq', if_pos hq']
      · rw [if_neg hq', if_neg hq']
        exact ih

/-!  Prune-pass lemmas. -/

theorem pruneStep_scene (live : List String) (st : EditorState)
    (e : String × ShapeRef) :
    (pruneStep live st e).scene = ShapeRef.remove e.2 st.scene := by
  unfold pruneStep
  split <;> rfl

theorem pruneStep_docBound (live : List String) (st : EditorState)
    (e : String × ShapeRef) : (pruneStep live st e).docBound = st.docBound := by
  unfold pruneStep
  split <;> rfl

theorem pruneStep_nextElemId (live : List String) (st : EditorState)
    (e : String × ShapeRef) :
    (pruneStep live st e).nextElemId = st.nextElemId := by
  unfold pruneStep
  split <;> rfl

theorem pruneStep_renderLog (live : List String) (st : EditorState)
    (e : String × ShapeRef) :
    (pruneStep live st e).renderLog = st.renderLog := by
  unfold pruneStep
  split <;> rfl

theorem pruneStep_byId_live (live : List String) (st : EditorState)
    (e : String × ShapeRef) (h : live.contains e.1 = true) :
    (pruneStep live st e).shapeRefsById = st.shapeRefsById := by
  unfold pruneStep
  rw [if_pos h]

theorem pruneStep_byId_dead (live : List String) (st : EditorState)
    (e : String × ShapeRef) (h : live.contains e.1 = false) :
    (pruneStep live st e).shapeRefsById = alDel st.shapeRefsById e.1 := by
  unfold pruneStep
  rw [if_neg (by rw [h]; exact Bool.false_ne_true)]

theorem pruneStep_byElem_live (live : List String) (st : EditorState)
    (e : String × ShapeRef) (h : live.contains e.1 = true) :
    (pruneStep live st e).shapeRefsByRenderElement =
      st.shapeRefsByRenderElement := by
  unfold pruneStep
  rw [if_pos h]

theorem pruneStep_byElem_dead (live : List String) (st : EditorState)
    (e : String × ShapeRef) (h : live.contains e.1 = false) :
    (pruneStep live st e).shapeRefsByRenderElement =
      alDel st.shapeRefsByRenderElement e.2.renderId := by
  unfold pruneStep
  rw [if_neg (by rw [h]; exact Bool.false_ne_true)]

theorem remove_eq_filter (r : ShapeRef) (scene : List Nat) :
    ShapeRef.remove r scene =
      scene.filter (fun i => decide (elemOf r ≠ some i)) := by
  unfold ShapeRef.remove
  cases hre : r.renderedElement with
  | none =>
    symm
    rw [List.filter_eq_self]
    intro a _
    simp [elemOf, hre]
  | some e =>
    apply List.filter_congr
    intro a _
    simp [elemOf, hre, eq_comm]

theorem pruneList_docBound (live : List String)
    (entries : List (String × ShapeRef)) :
    ∀ st : EditorState, (pruneList live st entries).docBound = st.docBound := by
  induction entries with
  | nil => intro st; rfl
  | cons e rest ih =>
    intro st
    rw [pruneList, ih, pruneStep_docBound]

theorem pruneList_nextElemId (live : List String)
    (entries : List (String × ShapeRef)) :
    ∀ st : EditorState,
      (pruneList live st entries).nextElemId = st.nextElemId := by
  induction entries with
  | nil => intro st; rfl
  | cons e rest ih =>
    intro st
    rw [pruneList, ih, pruneStep_nextElemId]

theorem pruneList_renderLog (live : List String)
    (entries : List (String × ShapeRef)) :
    ∀ st : EditorState,
      (pruneList live st entries).renderLog = st.renderLog := by
  induction entries with
  | nil => intro st; rfl
  | cons e rest ih =>
    intro st
    rw [pruneList, ih, pruneStep_renderLog]

theorem pruneList_scene (live : List String)
    (entries : List (String × ShapeRef)) :
    ∀ st : EditorState, (pruneList live st entries).scene =
      st.scene.filter
        (fun i => entries.all (fun e => decide (elemOf e.2 ≠ some i))) := by
  induction entries with
  | nil =>
    intro st
    show st.scene = _
    symm
    rw [List.filter_eq_self]
    intro a _
    simp
  | cons e rest ih =>
    intro st
    rw [pruneList, ih, pruneStep_scene, remove_eq_filter, List.filter_filter]
    apply List.filter_congr
    intro a _
    rw [List.all_cons, Bool.and_comm]

theorem pruneList_find_byId_live (live : List String) (k : String)
    (hk : live.contains k = true) (entries : List (String × ShapeRef)) :
    ∀ st : EditorState, alFind (pruneList live st entries).shapeRefsById k =
      alFind st.shapeRefsById k := by
  induction entries with
  | nil => intro st; rfl
  | cons e rest ih =>
    intro st
    rw [pruneList, ih]
    by_cases hl : live.contains e.1 = true
    · rw [pruneStep_byId_live live st e hl]
    · have hl' : live.contains e.1 = false := by
        cases hb : live.contains e.1
        · rfl
        · exact absurd hb hl
      rw [pruneStep_byId_dead live st e hl']
      refine alFind_alDel_ne st.shapeRefsById e.1 k (fun h => ?_)
      rw [h] at hk
      rw [hk] at hl'
      cases hl'

theorem pruneList_find_byId_none (live : List String) (k : String)
    (entries : List (String × ShapeRef)) :
    ∀ st : EditorState, alFind st.shapeRefsById k = none →
      alFind (pruneList live st entries).shapeRefsById k = none := by
  induction entries with
  | nil => intro st h; exact h
  | cons e rest ih =>
    intro st h
    rw [pruneList]
    refine ih (pruneStep live st e) ?_
    by_cases hl : live.contains e.1 = true
    · rw [pruneStep_byId_live live st e hl]
      exact h
    · have hl' : live.contains e.1 = false := by
        cases hb : live.contains e.1
        · rfl
        · exact absurd hb hl
      rw [pruneStep_byId_dead live st e hl']
      exact alFind_filter_none st.shapeRefsById k _ h

theorem pruneList_find_byId_dead (live : List String) (k : String)
    (r : ShapeRef) (hk : live.contains k = false)
    (entries : List (String × ShapeRef)) :
    ∀ st : EditorState, (k, r) ∈ entries →
      alFind (pruneList live st entries).shapeRefsById k = none := by
  induction entries with
  | nil => intro st hm; cases hm
  | cons e rest ih =>
    intro st hm
    rcases List.mem_cons.mp hm with hm | hm
    · rw [pruneList]
      refine pruneList_find_byId_none live k rest (pruneStep live st e) ?_
      have he1 : e.1 = k := by rw [← hm]
      rw [pruneStep_byId_dead live st e (by rw [he1]; exact hk), he1]
      exact alFind_alDel_self st.shapeRefsById k
    · rw [pruneList]
      exact ih (pruneStep live st e) hm

theorem pruneList_find_byElem_none (live : List String) (n : Nat)
    (entries : List (String × ShapeRef)) :
    ∀ st : EditorState, alFind st.shapeRefsByRenderElement n = none →
      alFind (pruneList live st entries).shapeRefsByRenderElement n = none := by
  induction entries with
  | nil => intro st h; exact h
  | cons e rest ih =>
    intro st h
    rw [pruneList]
    refine ih (pruneStep live st e) ?_
    by_cases hl : live.contains e.1 = true
    · rw [pruneStep_byElem_live live st e hl]
      exact h
    · have hl' : live.contains e.1 = false := by
        cases hb : live.contains e.1
        · rfl
        · exact absurd hb hl
      rw [pruneStep_byElem_dead live st e hl']
      exact alFind_filter_none st.shapeRefsByRenderElement n _ h

theorem pruneList_find_byElem_dead (live : List String) (k : String)
    (r : ShapeRef) (hk : live.contains k = false)
    (entries : List (String × ShapeRef)) :
    ∀ st : EditorState, (k, r) ∈ entries →
      alFind (pruneList live st entries).shapeRefsByRenderElement r.renderId =
        none := by
  induction entries with
  | nil => intro st hm; cases hm
  | cons e rest ih =>
    intro st hm
    rcases List.mem_cons.mp hm with hm | hm
    · rw [pruneList]
      refine pruneList_find_byElem_none live r.renderId rest
        (pruneStep live st e) ?_
      have he1 : e.1 = k := by rw [← hm]
      have he2 : e.2 = r := by rw [← hm]
      rw [pruneStep_byElem_dead live st e (by rw [he1]; exact hk), he2]
      exact alFind_alDel_self st.shapeRefsByRenderElement r.renderId
    · rw [pruneList]
      exact ih (pruneStep live st e) hm

theorem prune_find_byId (live : List String) (st : EditorState) (k : String) :
    alFind (prune live st).shapeRefsById k =
      if live.contains k = true then alFind st.shapeRefsById k else none := by
  by_cases hk : live.contains k = true
  · rw [if_pos hk]
    exact pruneList_find_byId_live live k hk st.shapeRefsById st
  · have hk' : live.contains k = false := by
      cases hb : live.contains k
      · rfl
      · exact absurd hb hk
    rw [if_neg hk]
    cases hf : alFind st.shapeRefsById k with
    | none => exact pruneList_find_byId_none live k st.shapeRefsById st hf
    | some r =>
      exact pruneList_find_byId_dead live k r hk' st.shapeRefsById st
        (alFind_mem st.shapeRefsById k r hf)

/-!  Render-pass lemmas. -/

theorem lookupOrNew_found (registry : List String) (debug : Bool)
    (st : EditorState) (s : DiagramShape) (r : ShapeRef)
    (h : alFind st.shapeRefsById s.id = some r) :
    lookupOrNew registry debug st s = r := by
  unfold lookupOrNew
  rw [h]

theorem lookupOrNew_missing (registry : List String) (debug : Bool)
    (st : EditorState) (s : DiagramShape)
    (h : alFind st.shapeRefsById s.id = none) :
    lookupOrNew registry debug st s = newShapeRef registry s.renderer debug := by
  unfold lookupOrNew
  rw [h]

theorem renderStep_some_eq (registry : List String) (debug : Bool)
    (st : EditorState) (s : DiagramShape) (st₁ : EditorState)
    (h : renderStep registry debug st s = some st₁) :
    ∃ out, ShapeRef.render (lookupOrNew registry debug st s) s st.scene
        st.nextElemId st.renderLog = some out ∧
      st₁ = { st with
              scene := out.scene
              nextElemId := out.nextElemId
              renderLog := out.renderLog
              shapeRefsByRenderElement :=
                alSet st.shapeRefsByRenderElement out.ref.renderId out.ref
              shapeRefsById := alSet st.shapeRefsById s.id out.ref } := by
  have h' : (match ShapeRef.render (lookupOrNew registry debug st s) s st.scene
        st.nextElemId st.renderLog with
      | none => none
      | some out => some { st with
          scene := out.scene
          nextElemId := out.nextElemId
          renderLog := out.renderLog
          shapeRefsByRenderElement :=
            alSet st.shapeRefsByRenderElement out.ref.renderId out.ref
          shapeRefsById := alSet st.shapeRefsById s.id out.ref }) = some st₁ := h
  cases hr : ShapeRef.render (lookupOrNew registry debug st s) s st.scene
      st.nextElemId st.renderLog with
  | none =>
    rw [hr] at h'
    cases h'
  | some out =>
    rw [hr] at h'
    exact ⟨out, rfl, (Option.some.inj h').symm⟩

theorem renderStep_none_eq (registry : List String) (debug : Bool)
    (st : EditorState) (s : DiagramShape)
    (h : renderStep registry debug st s = none) :
    ShapeRef.render (lookupOrNew registry debug st s) s st.scene
      st.nextElemId st.renderLog = none := by
  have h' : (match ShapeRef.render (lookupOrNew registry debug st s) s st.scene
        st.nextElemId st.renderLog with
      | none => none
      | some out => some { st with
          scene := out.scene
          nextElemId := out.nextElemId
          renderLog := out.renderLog
          shapeRefsByRenderElement :=
            alSet st.shapeRefsByRenderElement out.ref.renderId out.ref
          shapeRefsById := alSet st.shapeRefsById s.id out.ref }) = none := h
  cases hr : ShapeRef.render (lookupOrNew registry debug st s) s st.scene
      st.nextElemId st.renderLog with
  | none => rfl
  | some out =>
    rw [hr] at h'
    cases h'

/-- Case analysis on a successful `ShapeRef.render`: either the full re-render
path ran (identity mismatch or missing element, renderer resolved, new element
produced and attached, invocation logged), or the cheap path re-attached the
existing element of the unchanged ref. -/
theorem render_some_cases (r : ShapeRef) (s : DiagramShape) (scene : List Nat)
    (n : Nat) (log : List (DiagramShape × Bool)) (out : RenderOut)
    (h : ShapeRef.render r s scene n log = some out) :
    ((r.shape ≠ some s ∨ r.renderedElement = none) ∧
      (∃ rk, r.renderer = some rk) ∧
      out = { ref := { r with
                       shape := some s
                       renderedElement :=
                         some (rendererRender s r.showDebugMarkers n) }
              scene := scene ++ [n]
              nextElemId := n + 1
              renderLog := log ++ [(s, r.showDebugMarkers)] }) ∨
    (r.shape = some s ∧ ∃ e, r.renderedElement = some e ∧
      out = { ref := r
              scene := sceneAdd scene e.elemId
              nextElemId := n
              renderLog := log }) := by
  unfold ShapeRef.render at h
  by_cases hc : r.shape ≠ some s ∨ r.renderedElement = none
  · rw [if_pos hc] at h
    cases hrr : r.renderer with
    | none =>
      rw [hrr] at h
      cases h
    | some rk =>
      rw [hrr] at h
      left
      exact ⟨hc, ⟨rk, rfl⟩, (Option.some.inj h).symm⟩
  · rw [if_neg hc] at h
    push_neg at hc
    right
    obtain ⟨hs, hel⟩ := hc
    cases hre : r.renderedElement with
    | none => exact absurd hre hel
    | some e =>
      refine ⟨hs, e, rfl, ?_⟩
      have hid : r.renderId = e.elemId := by
        unfold ShapeRef.renderId
        rw [hre]
      have href : { r with shape := some s } = r := by
        obtain ⟨a, b, c, d⟩ := r
        simp only at hs
        rw [hs]
      rw [(Option.some.inj h).symm, hid, href]

theorem renderAll_cons (registry : List String) (debug : Bool)
    (st : EditorState) (s : DiagramShape) (rest : List DiagramShape) :
    renderAll registry debug st (s :: rest) =
      match renderStep registry debug st s with
      | none => (st, true)
      | some st' => renderAll registry debug st' rest := rfl

theorem renderStep_eq_match (registry : List String) (debug : Bool)
    (st : EditorState) (s : DiagramShape) :
    renderStep registry debug st s =
      match ShapeRef.render (lookupOrNew registry debug st s) s st.scene
          st.nextElemId st.renderLog with
      | none => none
      | some out => some { st with
          scene := out.scene
          nextElemId := out.nextElemId
          renderLog := out.renderLog
          shapeRefsByRenderElement :=
            alSet st.shapeRefsByRenderElement out.ref.renderId out.ref
          shapeRefsById := alSet st.shapeRefsById s.id out.ref } := rfl

/-- The cheap re-attach path of `ShapeRef.render`, in equational form. -/
theorem render_cheap_eq (r : ShapeRef) (s : DiagramShape) (scene : List Nat)
    (n : Nat) (log : List (DiagramShape × Bool)) (e : Element)
    (hs : r.shape = some s) (he : r.renderedElement = some e) :
    ShapeRef.render r s scene n log =
      some { ref := r
             scene := sceneAdd scene e.elemId
             nextElemId := n
             renderLog := log } := by
  have hcond : ¬(r.shape ≠ some s ∨ r.renderedElement = none) := by
    rw [hs, he]
    simp
  have hid : r.renderId = e.elemId := by
    unfold ShapeRef.renderId
    rw [he]
  have href : { r with shape := some s } = r := by
    obtain ⟨a, b, c, d⟩ := r
    simp only at hs
    rw [hs]
  unfold ShapeRef.render
  rw [if_neg hcond, href, hid]

theorem sceneAdd_mem_self (scene : List Nat) (i : Nat) : i ∈ sceneAdd scene i := by
  unfold sceneAdd
  exact List.mem_append_right _ (List.mem_singleton.mpr rfl)

theorem sceneAdd_mem_of_mem (scene : List Nat) (i j : Nat) (h : j ∈ scene) :
    j ∈ sceneAdd scene i := by
  by_cases hj : j = i
  · rw [hj]
    exact sceneAdd_mem_self scene i
  · exact List.mem_append_left _ (List.mem_filter.mpr ⟨h, by simp [hj]⟩)

/-- All shapes of a flattened list sharing an id are the same shape value;
this holds for any list produced by flattening, where each occurrence of an id
resolves through the same item mapping. -/
def IdFun (shapes : List DiagramShape) : Prop :=
  ∀ s ∈ shapes, ∀ s' ∈ shapes, s.id = s'.id → s = s'

theorem IdFun_of_cons {s : DiagramShape} {l : List DiagramShape}
    (h : IdFun (s :: l)) : IdFun l :=
  fun s₁ h₁ s₂ h₂ => h s₁ (List.mem_cons_of_mem _ h₁) s₂ (List.mem_cons_of_mem _ h₂)

theorem renderAll_docBound (registry : List String) (debug : Bool) :
    ∀ (shapes : List DiagramShape) (st : EditorState),
      ((renderAll registry debug st shapes).1).docBound = st.docBound := by
  intro shapes
  induction shapes with
  | nil => intro st; rfl
  | cons s rest ih =>
    intro st
    rw [renderAll_cons]
    cases hstep : renderStep registry debug st s with
    | none => rfl
    | some st₁ =>
      show ((renderAll registry debug st₁ rest).1).docBound = st.docBound
      obtain ⟨out, _, hst₁⟩ := renderStep_some_eq registry debug st s st₁ hstep
      rw [ih st₁, hst₁]

theorem renderAll_find_untouched (registry : List String) (debug : Bool)
    (k : String) :
    ∀ (shapes : List DiagramShape) (st st' : EditorState) (err : Bool),
      (∀ s ∈ shapes, s.id ≠ k) →
      renderAll registry debug st shapes = (st', err) →
      alFind st'.shapeRefsById k = alFind st.shapeRefsById k := by
  intro shapes
  induction shapes with
  | nil =>
    intro st st' err _ h
    cases h
    rfl
  | cons s rest ih =>
    intro st st' err hall h
    rw [renderAll_cons] at h
    cases hstep : renderStep registry debug st s with
    | none =>
      rw [hstep] at h
      cases h
      rfl
    | some st₁ =>
      rw [hstep] at h
      have h₂ : renderAll registry debug st₁ rest = (st', err) := h
      obtain ⟨out, _, hst₁⟩ := renderStep_some_eq registry debug st s st₁ hstep
      rw [ih st₁ st' err (fun s₀ hs₀ => hall s₀ (List.mem_cons_of_mem _ hs₀)) h₂,
        hst₁]
      exact alFind_alSet_ne st.shapeRefsById s.id k out.ref
        (Ne.symm (hall s (List.mem_cons_self _ _)))

theorem renderAll_scene_mono (registry : List String) (debug : Bool) (j : Nat) :
    ∀ (shapes : List DiagramShape) (st : EditorState), j ∈ st.scene →
      j ∈ ((renderAll registry debug st shapes).1).scene := by
  intro shapes
  induction shapes with
  | nil => intro st h; exact h
  | cons s rest ih =>
    intro st h
    rw [renderAll_cons]
    cases hstep : renderStep registry debug st s with
    | none => exact h
    | some st₁ =>
      show j ∈ ((renderAll registry debug st₁ rest).1).scene
      refine ih st₁ ?_
      obtain ⟨out, hrender, hst₁⟩ := renderStep_some_eq registry debug st s st₁ hstep
      rw [hst₁]
      show j ∈ out.scene
      rcases render_some_cases _ _ _ _ _ _ hrender with ⟨_, _, hout⟩ | ⟨_, e, _, hout⟩
      · rw [hout]
        exact List.mem_append_left _ h
      · rw [hout]
        exact sceneAdd_mem_of_mem st.scene e.elemId j h

theorem renderAll_log_extend (registry : List String) (debug : Bool) :
    ∀ (shapes : List DiagramShape) (st st' : EditorState) (err : Bool),
      renderAll registry debug st shapes = (st', err) →
      ∃ extra, st'.renderLog = st.renderLog ++ extra ∧
        ∀ q ∈ extra, q.1 ∈ shapes := by
  intro shapes
  induction shapes with
  | nil =>
    intro st st' err h
    cases h
    exact ⟨[], by rw [List.append_nil], by intro q hq; cases hq⟩
  | cons s rest ih =>
    intro st st' err h
    rw [renderAll_cons] at h
    cases hstep : renderStep registry debug st s with
    | none =>
      rw [hstep] at h
      cases h
      exact ⟨[], by rw [List.append_nil], by intro q hq; cases hq⟩
    | some st₁ =>
      rw [hstep] at h
      have h₂ : renderAll registry debug st₁ rest = (st', err) := h
      obtain ⟨extra, hlog, hmem⟩ := ih st₁ st' err h₂
      obtain ⟨out, hrender, hst₁⟩ := renderStep_some_eq registry debug st s st₁ hstep
      have hst₁log : st₁.renderLog = out.renderLog := by rw [hst₁]
      rcases render_some_cases _ _ _ _ _ _ hrender with ⟨_, _, hout⟩ | ⟨_, e, _, hout⟩
      · refine ⟨(s, (lookupOrNew registry debug st s).showDebugMarkers) :: extra, ?_, ?_⟩
        · rw [hlog, hst₁log, hout]
          simp
        · intro q hq
          rcases List.mem_cons.mp hq with hq | hq
          · rw [hq]
            exact List.mem_cons_self _ _
          · exact List.mem_cons_of_mem _ (hmem q hq)
      · refine ⟨extra, ?_, fun q hq => List.mem_cons_of_mem _ (hmem q hq)⟩
        rw [hlog, hst₁log, hout]

theorem renderAll_append_ok (registry : List String) (debug : Bool) :
    ∀ (xs ys : List DiagramShape) (st st₁ : EditorState),
      renderAll registry debug st xs = (st₁, false) →
      renderAll registry debug st (xs ++ ys) = renderAll registry debug st₁ ys := by
  intro xs
  induction xs with
  | nil =>
    intro ys st st₁ h
    cases h
    rfl
  | cons s rest ih =>
    intro ys st st₁ h
    rw [renderAll_cons] at h
    rw [List.cons_append, renderAll_cons]
    cases hstep : renderStep registry debug st s with
    | none =>
      rw [hstep] at h
      simp at h
    | some st₂ =>
      rw [hstep] at h
      exact ih ys st₂ st₁ h

/-- After a successful render loop, every processed shape has a registered ref
whose last shape is that very shape value, holding an element attached to the
scene.  (`IdFun` rules out two different shape values under one id, which a
single item mapping cannot produce.) -/
theorem renderAll_post_stable (registry : List String) (debug : Bool) :
    ∀ (shapes : List DiagramShape) (st st' : EditorState), IdFun shapes →
      renderAll registry debug st shapes = (st', false) →
      ∀ s ∈ shapes, ∃ r e, alFind st'.shapeRefsById s.id = some r ∧
        r.shape = some s ∧ r.renderedElement = some e ∧ e.elemId ∈ st'.scene := by
  intro shapes
  induction shapes with
  | nil =>
    intro st st' _ _ s hs
    cases hs
  | cons s₀ rest ih =>
    intro st st' hidf h s hs
    rw [renderAll_cons] at h
    cases hstep : renderStep registry debug st s₀ with
    | none =>
      rw [hstep] at h
      simp at h
    | some st₁ =>
      rw [hstep] at h
      have h₂ : renderAll registry debug st₁ rest = (st', false) := h
      rcases List.mem_cons.mp hs with hseq | hsrest
      · by_cases hdup : ∃ s'' ∈ rest, s''.id = s₀.id
        · obtain ⟨s'', hmem'', hid''⟩ := hdup
          have hs''eq : s'' = s₀ :=
            hidf s'' (List.mem_cons_of_mem _ hmem'') s₀ (List.mem_cons_self _ _) hid''
          obtain ⟨r, e, hfind, hshape, helem, hmem⟩ :=
            ih st₁ st' (IdFun_of_cons hidf) h₂ s'' hmem''
          rw [hs''eq] at hfind hshape
          rw [hseq]
          exact ⟨r, e, hfind, hshape, helem, hmem⟩
        · push_neg at hdup
          obtain ⟨out, hrender, hst₁⟩ :=
            renderStep_some_eq registry debug st s₀ st₁ hstep
          have hfind₁ : alFind st₁.shapeRefsById s₀.id = some out.ref := by
            rw [hst₁]
            exact alFind_alSet_self st.shapeRefsById s₀.id out.ref
          have hfind' : alFind st'.shapeRefsById s₀.id =
              alFind st₁.shapeRefsById s₀.id :=
            renderAll_find_untouched registry debug s₀.id rest st₁ st' false
              hdup h₂
          have hscene₁ : st₁.scene = out.scene := by rw [hst₁]
          rcases render_some_cases _ _ _ _ _ _ hrender with
            ⟨_, _, hout⟩ | ⟨hsh, e, hel, hout⟩
          · refine ⟨out.ref,
              rendererRender s₀ (lookupOrNew registry debug st s₀).showDebugMarkers
                st.nextElemId, ?_, ?_, ?_, ?_⟩
            · rw [hseq, hfind', hfind₁]
            · rw [hseq, hout]
            · rw [hout]
            · have hmem₁ : (rendererRender s₀
                  (lookupOrNew registry debug st s₀).showDebugMarkers
                  st.nextElemId).elemId ∈ st₁.scene := by
                rw [hscene₁, hout]
                exact List.mem_append_right _ (List.mem_singleton.mpr rfl)
              have := renderAll_scene_mono registry debug _ rest st₁ hmem₁
              rw [h₂] at this
              exact this
          · refine ⟨out.ref, e, ?_, ?_, ?_, ?_⟩
            · rw [hseq, hfind', hfind₁]
            · rw [hseq, hout]
              exact hsh
            · rw [hout]
              exact hel
            · have hmem₁ : e.elemId ∈ st₁.scene := by
                rw [hscene₁, hout]
                exact sceneAdd_mem_self st.scene e.elemId
              have := renderAll_scene_mono registry debug _ rest st₁ hmem₁
              rw [h₂] at this
              exact this
      · exact ih st₁ st' (IdFun_of_cons hidf) h₂ s hsrest

/-- Every shape already stably rendered (identical last shape, element
present) takes the cheap path: the whole loop succeeds without invoking any
renderer, leaves the counter and both tables (as maps) unchanged, and
re-attaches every such element to the scene. -/
theorem renderAll_cheap (registry : List String) (debug : Bool) :
    ∀ (shapes : List DiagramShape) (st : EditorState),
      (∀ s ∈ shapes, ∃ r e, alFind st.shapeRefsById s.id = some r ∧
        r.shape = some s ∧ r.renderedElement = some e) →
      IdFun shapes →
      ∃ st', renderAll registry debug st shapes = (st', false) ∧
        st'.renderLog = st.renderLog ∧
        st'.nextElemId = st.nextElemId ∧
        (∀ k, alFind st'.shapeRefsById k = alFind st.shapeRefsById k) ∧
        ∀ s ∈ shapes, ∀ r e, alFind st.shapeRefsById s.id = some r →
          r.renderedElement = some e → e.elemId ∈ st'.scene := by
  intro shapes
  induction shapes with
  | nil =>
    intro st _ _
    exact ⟨st, rfl, rfl, rfl, fun k => rfl, by intro s hs; cases hs⟩
  | cons s rest ih =>
    intro st hstab hidf
    obtain ⟨r, e, hfind, hshape, helem⟩ := hstab s (List.mem_cons_self _ _)
    have hstep : renderStep registry debug st s = some { st with
        scene := sceneAdd st.scene e.elemId
        shapeRefsByRenderElement := alSet st.shapeRefsByRenderElement r.renderId r
        shapeRefsById := alSet st.shapeRefsById s.id r } := by
      rw [renderStep_eq_match, lookupOrNew_found registry debug st s r hfind,
        render_cheap_eq r s st.scene st.nextElemId st.renderLog e hshape helem]
    set stNext : EditorState := { st with
        scene := sceneAdd st.scene e.elemId
        shapeRefsByRenderElement := alSet st.shapeRefsByRenderElement r.renderId r
        shapeRefsById := alSet st.shapeRefsById s.id r } with hstNext
    have hfindNext : ∀ k, alFind stNext.shapeRefsById k =
        alFind st.shapeRefsById k := by
      intro k
      show alFind (alSet st.shapeRefsById s.id r) k = alFind st.shapeRefsById k
      by_cases hk : k = s.id
      · rw [hk, alFind_alSet_self, hfind]
      · exact alFind_alSet_ne st.shapeRefsById s.id k r hk
    have hstabNext : ∀ s' ∈ rest, ∃ r' e',
        alFind stNext.shapeRefsById s'.id = some r' ∧ r'.shape = some s' ∧
        r'.renderedElement = some e' := by
      intro s' hs'
      obtain ⟨r', e', hf', hs'', he'⟩ := hstab s' (List.mem_cons_of_mem _ hs')
      exact ⟨r', e', by rw [hfindNext s'.id]; exact hf', hs'', he'⟩
    obtain ⟨st', hall, hlog, hnext, hfind', hattach⟩ :=
      ih stNext hstabNext (IdFun_of_cons hidf)
    refine ⟨st', ?_, ?_, ?_, ?_, ?_⟩
    · rw [renderAll_cons, hstep]
      exact hall
    · rw [hlog]
    · rw [hnext]
    · intro k
      rw [hfind' k, hfindNext k]
    · intro s₀ hs₀ r₀ e₀ hf₀ he₀
      by_cases hid₀ : s₀.id = s.id
      · have hr₀ : r₀ = r := by
          rw [hid₀, hfind] at hf₀
          exact (Option.some.inj hf₀).symm
        have he₀e : e₀ = e := by
          rw [hr₀, helem] at he₀
          exact (Option.some.inj he₀).symm
        have hmem₁ : e₀.elemId ∈ stNext.scene := by
          rw [he₀e]
          exact sceneAdd_mem_self st.scene e.elemId
        have := renderAll_scene_mono registry debug e₀.elemId rest stNext hmem₁
        rw [hall] at this
        exact this
      · rcases List.mem_cons.mp hs₀ with hs₀eq | hs₀rest
        · rw [hs₀eq] at hid₀
          exact absurd rfl hid₀
        · refine hattach s₀ hs₀rest r₀ e₀ ?_ he₀
          rw [hfindNext s₀.id]
          exact hf₀

theorem list_contains_of_mem (l : List String) (a : String) (h : a ∈ l) :
    l.contains a = true := by
  induction l with
  | nil => cases h
  | cons x t ih =>
    rw [List.contains_cons]
    rcases List.mem_cons.mp h with h | h
    · rw [h]
      simp
    · rw [ih h]
      simp

theorem renderDiagram_bound_eq (p : EditorProps) (st : EditorState)
    (h : st.docBound = true) :
    renderDiagram p st = renderAll p.registeredRenderers p.debugMarkers
      (prune ((getFlattenShapes p.selectedDiagram).map (fun s => s.id)) st)
      (getFlattenShapes p.selectedDiagram) := by
  unfold renderDiagram
  rw [if_pos h]

theorem prune_docBound (live : List String) (st : EditorState) :
    (prune live st).docBound = st.docBound :=
  pruneList_docBound live st.shapeRefsById st

theorem prune_renderLog (live : List String) (st : EditorState) :
    (prune live st).renderLog = st.renderLog :=
  pruneList_renderLog live st.shapeRefsById st

theorem prune_nextElemId (live : List String) (st : EditorState) :
    (prune live st).nextElemId = st.nextElemId :=
  pruneList_nextElemId live st.shapeRefsById st

/-- C2: running reconcile a second time on an unchanged diagram snapshot (so
every flattened shape is the identical value) invokes no renderer at all: the
invocation log is unchanged, and every flattened shape's existing ref — with
its lastShape equal to that very shape and its already-rendered element — is
carried over unchanged into the second pass's tables, its element re-attached
to the scene root. -/
theorem reconcile_no_rerender (p : EditorProps) (st st₁ : EditorState)
    (hdoc : st.docBound = true)
    (hidf : IdFun (getFlattenShapes p.selectedDiagram))
    (h1 : renderDiagram p st = (st₁, false)) :
    ∃ st₂, renderDiagram p st₁ = (st₂, false) ∧
      st₂.renderLog = st₁.renderLog ∧
      ∀ s ∈ getFlattenShapes p.selectedDiagram, ∃ r e,
        alFind st₁.shapeRefsById s.id = some r ∧ r.shape = some s ∧
        r.renderedElement = some e ∧
        alFind st₂.shapeRefsById s.id = some r ∧ e.elemId ∈ st₂.scene := by
  have h1' : renderAll p.registeredRenderers p.debugMarkers
      (prune ((getFlattenShapes p.selectedDiagram).map (fun s => s.id)) st)
      (getFlattenShapes p.selectedDiagram) = (st₁, false) := by
    rw [← renderDiagram_bound_eq p st hdoc]
    exact h1
  have hstable := renderAll_post_stable p.registeredRenderers p.debugMarkers
    (getFlattenShapes p.selectedDiagram) _ st₁ hidf h1'
  have hdoc₁ : st₁.docBound = true := by
    have hd := renderAll_docBound p.registeredRenderers p.debugMarkers
      (getFlattenShapes p.selectedDiagram)
      (prune ((getFlattenShapes p.selectedDiagram).map (fun s => s.id)) st)
    rw [h1'] at hd
    rw [hd, prune_docBound]
    exact hdoc
  have hfindPrune : ∀ s ∈ getFlattenShapes p.selectedDiagram,
      alFind (prune ((getFlattenShapes p.selectedDiagram).map (fun s => s.id))
        st₁).shapeRefsById s.id = alFind st₁.shapeRefsById s.id := by
    intro s hs
    have hlive : ((getFlattenShapes p.selectedDiagram).map
        (fun s => s.id)).contains s.id = true :=
      list_contains_of_mem _ s.id (List.mem_map_of_mem _ hs)
    rw [prune_find_byId, if_pos hlive]
  have hstab₂ : ∀ s ∈ getFlattenShapes p.selectedDiagram, ∃ r e,
      alFind (prune ((getFlattenShapes p.selectedDiagram).map (fun s => s.id))
        st₁).shapeRefsById s.id = some r ∧ r.shape = some s ∧
      r.renderedElement = some e := by
    intro s hs
    obtain ⟨r, e, hf, hsh, hel, _⟩ := hstable s hs
    exact ⟨r, e, by rw [hfindPrune s hs]; exact hf, hsh, hel⟩
  obtain ⟨st₂, hall₂, hlog₂, _, hfind₂, hattach₂⟩ :=
    renderAll_cheap p.registeredRenderers p.debugMarkers
      (getFlattenShapes p.selectedDiagram) _ hstab₂ hidf
  refine ⟨st₂, ?_, ?_, ?_⟩
  · rw [renderDiagram_bound_eq p st₁ hdoc₁]
    exact hall₂
  · rw [hlog₂, prune_renderLog]
  · intro s hs
    obtain ⟨r, e, hf, hsh, hel, _⟩ := hstable s hs
    refine ⟨r, e, hf, hsh, hel, ?_, ?_⟩
    · rw [hfind₂ s.id, hfindPrune s hs]
      exact hf
    · refine hattach₂ s hs r e ?_ hel
      rw [hfindPrune s hs]
      exact hf

/-- Witness for C2: the second pass over the unchanged one-shape diagram. -/
theorem reconcile_no_rerender_w :
    ∃ st₂, renderDiagram propsV1 passV1 = (st₂, false) ∧
      st₂.renderLog = passV1.renderLog ∧
      ∀ s ∈ getFlattenShapes propsV1.selectedDiagram, ∃ r e,
        alFind passV1.shapeRefsById s.id = some r ∧ r.shape = some s ∧
        r.renderedElement = some e ∧
        alFind st₂.shapeRefsById s.id = some r ∧ e.elemId ∈ st₂.scene :=
  reconcile_no_rerender propsV1 editorInit passV1 rfl (by unfold IdFun; decide)
    (by decide)

/-- `renderer.setContext` on an `undefined` renderer throws before anything is
mutated: `ShapeRef.render` on the full-render path with no resolved renderer
yields the error. -/
theorem render_miss (r : ShapeRef) (s : DiagramShape) (scene : List Nat)
    (n : Nat) (log : List (DiagramShape × Bool)) (hrr : r.renderer = none)
    (hcond : r.shape ≠ some s ∨ r.renderedElement = none) :
    ShapeRef.render r s scene n log = none := by
  unfold ShapeRef.render
  rw [if_pos hcond, hrr]

theorem newShapeRef_renderer_miss (registry : List String) (key : String)
    (debug : Bool) (h : registry.contains key = false) :
    (newShapeRef registry key debug).renderer = none := by
  unfold newShapeRef
  rw [if_neg (by rw [h]; exact Bool.false_ne_true)]

section RegistryMissExample

def badShape : DiagramShape := { id := "B", renderer := "Missing", data := 0 }

def cShape : DiagramShape := { id := "C", renderer := "Button", data := 3 }

def diagMiss : Diagram :=
  { rootIds := ["A", "B", "C"],
    items := [("A", DiagramItem.shape dShapeV1),
              ("B", DiagramItem.shape badShape),
              ("C", DiagramItem.shape cShape)] }

def propsMiss : EditorProps :=
  { registeredRenderers := ["Button"], selectedDiagram := some diagMiss,
    debugMarkers := true }

/-- State reached by rendering just the prefix before the registry miss. -/
def stPreW : EditorState :=
  (renderAll propsMiss.registeredRenderers propsMiss.debugMarkers
    (prune (([dShapeV1] ++ badShape :: [cShape]).map (fun s => s.id)) editorInit)
    [dShapeV1]).1

end RegistryMissExample

/-- C5: when the flattened sequence is `pre ++ bad :: post`, the renderer key
of `bad` has no registry entry and no ref exists for its id, a pass that
renders `pre` successfully aborts exactly at `bad`: the pass returns the state
reached after `pre` with the error raised, so `bad` and every shape of `post`
are not rendered, while every shape of `pre` remains rendered, attached to the
scene and registered, and every renderer invocation of the pass was for a
shape of `pre`. -/
theorem registry_miss_aborts_pass (p : EditorProps) (st stPre : EditorState)
    (pre post : List DiagramShape) (bad : DiagramShape)
    (hdoc : st.docBound = true)
    (hsplit : getFlattenShapes p.selectedDiagram = pre ++ bad :: post)
    (hmiss : p.registeredRenderers.contains bad.renderer = false)
    (hnoref : alFind st.shapeRefsById bad.id = none)
    (hpre_ne : ∀ s ∈ pre, s.id ≠ bad.id)
    (hidf : IdFun pre)
    (hpre_run : renderAll p.registeredRenderers p.debugMarkers
      (prune ((pre ++ bad :: post).map (fun s => s.id)) st) pre =
      (stPre, false)) :
    renderDiagram p st = (stPre, true) ∧
    (∀ s ∈ pre, ∃ r e, alFind stPre.shapeRefsById s.id = some r ∧
      r.shape = some s ∧ r.renderedElement = some e ∧
      e.elemId ∈ stPre.scene) ∧
    ∃ extra, stPre.renderLog = st.renderLog ++ extra ∧
      ∀ q ∈ extra, q.1 ∈ pre := by
  have hlive : ((pre ++ bad :: post).map (fun s => s.id)).contains bad.id = true :=
    list_contains_of_mem _ _ (List.mem_map_of_mem _
      (List.mem_append_right pre (List.mem_cons_self _ _)))
  have hfindPrune : alFind (prune ((pre ++ bad :: post).map (fun s => s.id))
      st).shapeRefsById bad.id = none := by
    rw [prune_find_byId, if_pos hlive]
    exact hnoref
  have hfindPre : alFind stPre.shapeRefsById bad.id = none := by
    rw [renderAll_find_untouched p.registeredRenderers p.debugMarkers bad.id pre
      _ stPre false hpre_ne hpre_run]
    exact hfindPrune
  have hstepBad : renderStep p.registeredRenderers p.debugMarkers stPre bad =
      none := by
    rw [renderStep_eq_match,
      lookupOrNew_missing p.registeredRenderers p.debugMarkers stPre bad hfindPre,
      render_miss _ _ _ _ _
        (newShapeRef_renderer_miss p.registeredRenderers bad.renderer
          p.debugMarkers hmiss)
        (Or.inl (fun h => Option.noConfusion h))]
  refine ⟨?_, ?_, ?_⟩
  · rw [renderDiagram_bound_eq p st hdoc, hsplit,
      renderAll_append_ok p.registeredRenderers p.debugMarkers pre (bad :: post)
        _ stPre hpre_run,
      renderAll_cons, hstepBad]
  · exact renderAll_post_stable p.registeredRenderers p.debugMarkers pre _ stPre
      hidf hpre_run
  · obtain ⟨extra, hlog, hmem⟩ := renderAll_log_extend p.registeredRenderers
      p.debugMarkers pre _ stPre false hpre_run
    rw [prune_renderLog] at hlog
    exact ⟨extra, hlog, hmem⟩

/-- Witness for C5: registry `[Button]`, flattened shapes `[A, B, C]` where
`B`'s renderer key `Missing` has no registry entry: the pass renders `A`,
aborts at `B`, and `C` is never processed. -/
theorem registry_miss_aborts_pass_w :
    renderDiagram propsMiss editorInit = (stPreW, true) ∧
    (∀ s ∈ [dShapeV1], ∃ r e, alFind stPreW.shapeRefsById s.id = some r ∧
      r.shape = some s ∧ r.renderedElement = some e ∧
      e.elemId ∈ stPreW.scene) ∧
    ∃ extra, stPreW.renderLog = editorInit.renderLog ++ extra ∧
      ∀ q ∈ extra, q.1 ∈ [dShapeV1] :=
  registry_miss_aborts_pass propsMiss editorInit stPreW [dShapeV1] [cShape]
    badShape rfl (by decide) (by decide) (by decide) (by decide)
    (by unfold IdFun; decide) (by decide)

/-!  Stale-removal lemmas. -/

/-- Every element id owned by a registered ref is below the fresh-id counter. -/
def Bound (l : List (String × ShapeRef)) (n : Nat) : Prop :=
  ∀ k r i, alFind l k = some r → elemOf r = some i → i < n

/-- Refs registered under different ids own different scene elements. -/
def DistinctElems (l : List (String × ShapeRef)) : Prop :=
  ∀ k₁ k₂ r₁ r₂ i, alFind l k₁ = some r₁ → alFind l k₂ = some r₂ →
    k₁ ≠ k₂ → elemOf r₁ = some i → elemOf r₂ ≠ some i

/-- The element id `n` is completely gone from the state: not attached, owned
by no registered ref, and absent from the element-id table. -/
def Avoid (n : Nat) (st : EditorState) : Prop :=
  n < st.nextElemId ∧ n ∉ st.scene ∧
  (∀ k r, alFind st.shapeRefsById k = some r → elemOf r ≠ some n) ∧
  alFind st.shapeRefsByRenderElement n = none

theorem prune_scene_not_mem (live : List String) (st : EditorState)
    (k : String) (r : ShapeRef) (n : Nat) (hm : (k, r) ∈ st.shapeRefsById)
    (he : elemOf r = some n) : n ∉ (prune live st).scene := by
  intro hmem
  have hchar := pruneList_scene live st.shapeRefsById st
  unfold prune at hmem
  rw [hchar] at hmem
  have hall := (List.mem_filter.mp hmem).2
  have := List.all_eq_true.mp hall (k, r) hm
  rw [he] at this
  simp at this

theorem sceneAdd_not_mem (scene : List Nat) (i n : Nat) (hn : n ∉ scene)
    (hni : n ≠ i) : n ∉ sceneAdd scene i := by
  intro hmem
  rcases List.mem_append.mp hmem with h | h
  · exact hn (List.mem_filter.mp h).1
  · exact hni (List.mem_singleton.mp h)

theorem renderStep_avoid (registry : List String) (debug : Bool) (n : Nat)
    (st st₁ : EditorState) (s : DiagramShape)
    (hstep : renderStep registry debug st s = some st₁) (hav : Avoid n st) :
    Avoid n st₁ := by
  obtain ⟨hlt, hscene, hbyId, hbyElem⟩ := hav
  obtain ⟨out, hrender, hst₁⟩ := renderStep_some_eq registry debug st s st₁ hstep
  rcases render_some_cases _ _ _ _ _ _ hrender with
    ⟨_, _, hout⟩ | ⟨_, e, hel, hout⟩
  · have helem : elemOf out.ref = some st.nextElemId := by
      rw [hout]
      rfl
    have hrid : out.ref.renderId = st.nextElemId := by
      rw [hout]
      rfl
    have hne : n ≠ st.nextElemId := Nat.ne_of_lt hlt
    refine ⟨?_, ?_, ?_, ?_⟩
    · rw [hst₁, hout]
      exact Nat.lt_succ_of_lt hlt
    · rw [hst₁, hout]
      intro hmem
      rcases List.mem_append.mp hmem with h | h
      · exact hscene h
      · exact hne (List.mem_singleton.mp h)
    · intro k r' hf
      rw [hst₁] at hf
      by_cases hk : k = s.id
      · rw [hk, alFind_alSet_self] at hf
        rw [← Option.some.inj hf, helem]
        intro hcon
        exact hne (Option.some.inj hcon).symm
      · rw [alFind_alSet_ne st.shapeRefsById s.id k out.ref hk] at hf
        exact hbyId k r' hf
    · rw [hst₁]
      show alFind (alSet st.shapeRefsByRenderElement out.ref.renderId out.ref) n = none
      rw [alFind_alSet_ne st.shapeRefsByRenderElement out.ref.renderId n out.ref
        (by rw [hrid]; exact hne)]
      exact hbyElem
  · have hlr : elemOf (lookupOrNew registry debug st s) = some e.elemId := by
      unfold elemOf
      rw [hel]
      rfl
    have hene : e.elemId ≠ n := by
      cases hfs : alFind st.shapeRefsById s.id with
      | some r₀ =>
        have : lookupOrNew registry debug st s = r₀ :=
          lookupOrNew_found registry debug st s r₀ hfs
        rw [this] at hlr
        intro hcon
        exact hbyId s.id r₀ hfs (by rw [hlr, hcon])
      | none =>
        have : lookupOrNew registry debug st s =
            newShapeRef registry s.renderer debug :=
          lookupOrNew_missing registry debug st s hfs
        rw [this] at hel
        cases hel
    have helem : elemOf out.ref = some e.elemId := by
      rw [hout]
      exact hlr
    have hrid : out.ref.renderId = e.elemId := by
      rw [hout]
      show (lookupOrNew registry debug st s).renderId = e.elemId
      unfold ShapeRef.renderId
      rw [hel]
    refine ⟨?_, ?_, ?_, ?_⟩
    · rw [hst₁, hout]
      exact hlt
    · rw [hst₁, hout]
      exact sceneAdd_not_mem st.scene e.elemId n hscene (fun h => hene h.symm)
    · intro k r' hf
      rw [hst₁] at hf
      by_cases hk : k = s.id
      · rw [hk, alFind_alSet_self] at hf
        rw [← Option.some.inj hf, helem]
        intro hcon
        exact hene (Option.some.inj hcon)
      · rw [alFind_alSet_ne st.shapeRefsById s.id k out.ref hk] at hf
        exact hbyId k r' hf
    · rw [hst₁]
      show alFind (alSet st.shapeRefsByRenderElement out.ref.renderId out.ref) n = none
      rw [alFind_alSet_ne st.shapeRefsByRenderElement out.ref.renderId n out.ref
        (by rw [hrid]; exact fun h => hene h.symm)]
      exact hbyElem

theorem renderAll_avoid (registry : List String) (debug : Bool) (n : Nat) :
    ∀ (shapes : List DiagramShape) (st : EditorState), Avoid n st →
      Avoid n ((renderAll registry debug st shapes).1) := by
  intro shapes
  induction shapes with
  | nil => intro st h; exact h
  | cons s rest ih =>
    intro st h
    rw [renderAll_cons]
    cases hstep : renderStep registry debug st s with
    | none => exact h
    | some st₁ =>
      show Avoid n ((renderAll registry debug st₁ rest).1)
      exact ih st₁ (renderStep_avoid registry debug n st st₁ s hstep h)

theorem bound_singleton (k₀ : String) (r₀ : ShapeRef) (i₀ n : Nat)
    (hi : elemOf r₀ = some i₀) (hn : i₀ < n) : Bound [(k₀, r₀)] n := by
  intro k r i hf he
  rw [alFind] at hf
  by_cases hk : k₀ = k
  · rw [if_pos hk] at hf
    rw [← Option.some.inj hf, hi] at he
    rw [← Option.some.inj he]
    exact hn
  · rw [if_neg hk] at hf
    cases hf

theorem distinct_singleton (k₀ : String) (r₀ : ShapeRef) :
    DistinctElems [(k₀, r₀)] := by
  intro k₁ k₂ r₁ r₂ i h₁ h₂ hne _
  rw [alFind] at h₁ h₂
  by_cases hk₁ : k₀ = k₁
  · by_cases hk₂ : k₀ = k₂
    · exact absurd (hk₁ ▸ hk₂) hne
    · rw [if_neg hk₂] at h₂
      cases h₂
  · rw [if_neg hk₁] at h₁
    cases h₁

/-- C3, amended: in the first reconcile pass in which a previously rendered id
no longer appears in the flattened list (whether or not the pass later
aborts), the id is deleted from `shapeRefsById` and never re-registered, the
`shapeRefsByRenderElement` entry under the ref's current render-element id is
deleted and that key is never re-used, and the ref's scene element is detached
and never re-attached. -/
theorem stale_ref_removed_first_pass (p : EditorProps) (st st' : EditorState)
    (err : Bool) (id : String) (r : ShapeRef) (e : Element)
    (hdoc : st.docBound = true)
    (hfind : alFind st.shapeRefsById id = some r)
    (hel : r.renderedElement = some e)
    (hdead : ((getFlattenShapes p.selectedDiagram).map
      (fun s => s.id)).contains id = false)
    (hbound : Bound st.shapeRefsById st.nextElemId)
    (hdist : DistinctElems st.shapeRefsById)
    (hrun : renderDiagram p st = (st', err)) :
    alFind st'.shapeRefsById id = none ∧
    alFind st'.shapeRefsByRenderElement e.elemId = none ∧
    e.elemId ∉ st'.scene := by
  have hrun' : renderAll p.registeredRenderers p.debugMarkers
      (prune ((getFlattenShapes p.selectedDiagram).map (fun s => s.id)) st)
      (getFlattenShapes p.selectedDiagram) = (st', err) := by
    rw [← renderDiagram_bound_eq p st hdoc]
    exact hrun
  have helemOf : elemOf r = some e.elemId := by
    unfold elemOf
    rw [hel]
    rfl
  have hnotlive : ∀ s ∈ getFlattenShapes p.selectedDiagram, s.id ≠ id := by
    intro s hs hcon
    have hm : s.id ∈ (getFlattenShapes p.selectedDiagram).map (fun s => s.id) :=
      List.mem_map_of_mem _ hs
    rw [hcon] at hm
    have := list_contains_of_mem _ id hm
    rw [hdead] at this
    cases this
  have hmem : (id, r) ∈ st.shapeRefsById := alFind_mem _ _ _ hfind
  have hfindP : alFind (prune ((getFlattenShapes p.selectedDiagram).map
      (fun s => s.id)) st).shapeRefsById id = none := by
    rw [prune_find_byId,
      if_neg (fun h => absurd h (by rw [hdead]; exact Bool.false_ne_true))]
  have hbyId' : alFind st'.shapeRefsById id = none := by
    rw [renderAll_find_untouched p.registeredRenderers p.debugMarkers id
      (getFlattenShapes p.selectedDiagram) _ st' err hnotlive hrun']
    exact hfindP
  have havP : Avoid e.elemId (prune ((getFlattenShapes p.selectedDiagram).map
      (fun s => s.id)) st) := by
    refine ⟨?_, ?_, ?_, ?_⟩
    · rw [prune_nextElemId]
      exact hbound id r e.elemId hfind helemOf
    · exact prune_scene_not_mem _ st id r e.elemId hmem helemOf
    · intro k r' hf
      rw [prune_find_byId] at hf
      by_cases hlv : ((getFlattenShapes p.selectedDiagram).map
          (fun s => s.id)).contains k = true
      · rw [if_pos hlv] at hf
        by_cases hk : id = k
        · rw [← hk, hdead] at hlv
          cases hlv
        · exact hdist id k r r' e.elemId hfind hf hk helemOf
      · rw [if_neg hlv] at hf
        cases hf
    · have hrid : r.renderId = e.elemId := by
        unfold ShapeRef.renderId
        rw [hel]
      rw [← hrid]
      exact pruneList_find_byElem_dead
        ((getFlattenShapes p.selectedDiagram).map (fun s => s.id)) id r hdead
        st.shapeRefsById st hmem
  have havF := renderAll_avoid p.registeredRenderers p.debugMarkers e.elemId
    (getFlattenShapes p.selectedDiagram) _ havP
  rw [hrun'] at havF
  exact ⟨hbyId', havF.2.2.2, havF.2.1⟩

/-- The ref value registered for id `A` after the second example pass, owning
the replacement element `1`. -/
def refAfterV2 : ShapeRef :=
  { renderer := some "Button", showDebugMarkers := true,
    shape := some dShapeV2,
    renderedElement := some (rendererRender dShapeV2 true 1) }

/-- Witness for the amended C3: after the pass in which id `A` vanished, the
id is gone from `shapeRefsById`, the element table has no entry under the
ref's current element id `1`, and element `1` is detached. -/
theorem stale_ref_removed_first_pass_w :
    alFind passGone.shapeRefsById "A" = none ∧
    alFind passGone.shapeRefsByRenderElement
      (rendererRender dShapeV2 true 1).elemId = none ∧
    (rendererRender dShapeV2 true 1).elemId ∉ passGone.scene :=
  stale_ref_removed_first_pass propsEmpty passV2 passGone false "A" refAfterV2
    (rendererRender dShapeV2 true 1) (by decide) (by decide) rfl (by decide)
    (bound_singleton "A" refAfterV2 1 2 rfl (by decide))
    (distinct_singleton "A" refAfterV2) (by decide)

/-- C3 as stated is refuted: the shape with id `A` is rendered in pass one
(element `0`), re-rendered in pass two after its value was replaced (element
`1`), and vanishes in pass three.  The third pass deletes the `shapeRefsById`
entry, deletes the element-table entry under the ref's current element id `1`
and detaches the element — but the element-table entry registered under the
superseded element id `0` still maps to the vanished id's ShapeRef. -/
theorem stale_elem_entry_persists :
    alFind passGone.shapeRefsById "A" = none ∧
    passGone.scene = [] ∧
    alFind passGone.shapeRefsByRenderElement 0 =
      some { renderer := some "Button", showDebugMarkers := true,
             shape := some dShapeV1,
             renderedElement := some (rendererRender dShapeV1 true 0) } := by
  refine ⟨by decide, by decide, by decide⟩

/-!  Paint-order lemmas. -/

/-- The element id the pass leaves attached for a shape: its registered ref's
element. -/
def attachedElem (st : EditorState) (s : DiagramShape) : Option Nat :=
  (alFind st.shapeRefsById s.id).bind elemOf

theorem sceneAdd_eq_append (scene : List Nat) (i : Nat) (h : i ∉ scene) :
    sceneAdd scene i = scene ++ [i] := by
  unfold sceneAdd
  rw [List.filter_eq_self.mpr]
  intro a ha
  simp
  intro hcon
  rw [hcon] at ha
  exact h ha

theorem alSet_find_unchanged {α β : Type} [DecidableEq α]
    (l : List (α × β)) (k : α) (v : β) (h : alFind l k = some v) :
    ∀ k', alFind (alSet l k v) k' = alFind l k' := by
  intro k'
  by_cases hk : k' = k
  · rw [hk, alFind_alSet_self, h]
  · exact alFind_alSet_ne l k k' v hk

theorem distinct_ext (l₁ l₂ : List (String × ShapeRef))
    (h : ∀ k, alFind l₂ k = alFind l₁ k) (hd : DistinctElems l₁) :
    DistinctElems l₂ := by
  intro k₁ k₂ r₁ r₂ i h₁ h₂ hne he₁
  rw [h k₁] at h₁
  rw [h k₂] at h₂
  exact hd k₁ k₂ r₁ r₂ i h₁ h₂ hne he₁

theorem bound_ext (l₁ l₂ : List (String × ShapeRef)) (n : Nat)
    (h : ∀ k, alFind l₂ k = alFind l₁ k) (hb : Bound l₁ n) : Bound l₂ n := by
  intro k r i hf he
  rw [h k] at hf
  exact hb k r i hf he

theorem distinct_alSet_fresh (l : List (String × ShapeRef)) (n : Nat)
    (k : String) (v : ShapeRef) (hd : DistinctElems l) (hb : Bound l n)
    (hv : elemOf v = some n) : DistinctElems (alSet l k v) := by
  intro k₁ k₂ r₁ r₂ i h₁ h₂ hne he₁
  by_cases hk₁ : k₁ = k
  · rw [hk₁, alFind_alSet_self] at h₁
    rw [← Option.some.inj h₁, hv] at he₁
    have hin : i = n := (Option.some.inj he₁).symm
    have hk₂ : k₂ ≠ k := by
      rw [← hk₁]
      exact fun hcon => hne hcon.symm
    rw [alFind_alSet_ne l k k₂ v hk₂] at h₂
    intro hcon
    have := hb k₂ r₂ i h₂ hcon
    rw [hin] at this
    exact Nat.lt_irrefl _ this
  · rw [alFind_alSet_ne l k k₁ v hk₁] at h₁
    by_cases hk₂ : k₂ = k
    · rw [hk₂, alFind_alSet_self] at h₂
      rw [← Option.some.inj h₂, hv]
      intro hcon
      have := hb k₁ r₁ i h₁ he₁
      rw [Option.some.inj hcon] at this
      exact Nat.lt_irrefl _ this
    · rw [alFind_alSet_ne l k k₂ v hk₂] at h₂
      exact hd k₁ k₂ r₁ r₂ i h₁ h₂ hne he₁

theorem bound_alSet_fresh (l : List (String × ShapeRef)) (n : Nat) (k : String)
    (v : ShapeRef) (hb : Bound l n) (hv : elemOf v = some n) :
    Bound (alSet l k v) (n + 1) := by
  intro k' r i hf he
  by_cases hk : k' = k
  · rw [hk, alFind_alSet_self] at hf
    rw [← Option.some.inj hf, hv] at he
    rw [← Option.some.inj he]
    exact Nat.lt_succ_self n
  · rw [alFind_alSet_ne l k k' v hk] at hf
    exact Nat.lt_succ_of_lt (hb k' r i hf he)

/-- The render loop from a well-formed state appends exactly one element per
shape, in shape order: the final scene extends the initial one by the list of
the processed shapes' element ids, positionally matching the refs registered
in the final tables. -/
theorem renderAll_ordered (registry : List String) (debug : Bool) :
    ∀ (shapes : List DiagramShape) (st : EditorState),
      DistinctElems st.shapeRefsById →
      Bound st.shapeRefsById st.nextElemId →
      (shapes.map (fun s => s.id)).Nodup →
      (∀ s ∈ shapes, ∀ r i, alFind st.shapeRefsById s.id = some r →
        elemOf r = some i → i ∉ st.scene) →
      ∀ st', renderAll registry debug st shapes = (st', false) →
      ∃ es, st'.scene = st.scene ++ es ∧
        shapes.map (fun s => attachedElem st' s) = es.map some := by
  intro shapes
  induction shapes with
  | nil =>
    intro st _ _ _ _ st' h
    cases h
    exact ⟨[], by rw [List.append_nil], rfl⟩
  | cons s rest ih =>
    intro st hdist hbound hnodup hdisj st' h
    rw [renderAll_cons] at h
    cases hstep : renderStep registry debug st s with
    | none =>
      rw [hstep] at h
      simp at h
    | some st₁ =>
      rw [hstep] at h
      have h₂ : renderAll registry debug st₁ rest = (st', false) := h
      obtain ⟨out, hrender, hst₁⟩ := renderStep_some_eq registry debug st s st₁ hstep
      have hnodup' : (rest.map (fun s => s.id)).Nodup :=
        (List.nodup_cons.mp hnodup).2
      have hhead : s.id ∉ rest.map (fun s => s.id) :=
        (List.nodup_cons.mp hnodup).1
      have hrestne : ∀ s' ∈ rest, s'.id ≠ s.id := by
        intro s' hs' hcon
        exact hhead (by rw [← hcon]; exact List.mem_map_of_mem _ hs')
      -- the element attached for `s`, and the shape of `st₁`
      have hmain : ∃ i₀, st₁.scene = st.scene ++ [i₀] ∧
          elemOf out.ref = some i₀ ∧
          DistinctElems st₁.shapeRefsById ∧
          Bound st₁.shapeRefsById st₁.nextElemId ∧
          (∀ s' ∈ rest, ∀ r i, alFind st₁.shapeRefsById s'.id = some r →
            elemOf r = some i → i ∉ st₁.scene) := by
        rcases render_some_cases _ _ _ _ _ _ hrender with
          ⟨_, _, hout⟩ | ⟨_, e, hel, hout⟩
        · -- full re-render: fresh element st.nextElemId
          have helem : elemOf out.ref = some st.nextElemId := by
            rw [hout]
            rfl
          refine ⟨st.nextElemId, ?_, helem, ?_, ?_, ?_⟩
          · rw [hst₁, hout]
          · rw [hst₁]
            exact distinct_alSet_fresh st.shapeRefsById st.nextElemId s.id
              out.ref hdist hbound helem
          · have hnext : out.nextElemId = st.nextElemId + 1 := by rw [hout]
            rw [hst₁]
            show Bound (alSet st.shapeRefsById s.id out.ref) out.nextElemId
            rw [hnext]
            exact bound_alSet_fresh st.shapeRefsById st.nextElemId s.id out.ref
              hbound helem
          · intro s' hs' r i hf he hmem
            rw [hst₁] at hf
            rw [hst₁, hout] at hmem
            rw [alFind_alSet_ne st.shapeRefsById s.id s'.id out.ref
              (hrestne s' hs')] at hf
            rcases List.mem_append.mp hmem with hm | hm
            · exact hdisj s' (List.mem_cons_of_mem _ hs') r i hf he hm
            · have hi : i = st.nextElemId := List.mem_singleton.mp hm
              have := hbound s'.id r i hf he
              rw [hi] at this
              exact Nat.lt_irrefl _ this
        · -- cheap re-attach: the found ref's element
          have hfound : alFind st.shapeRefsById s.id =
              some (lookupOrNew registry debug st s) := by
            cases hfs : alFind st.shapeRefsById s.id with
            | some r₀ =>
              rw [lookupOrNew_found registry debug st s r₀ hfs]
            | none =>
              rw [lookupOrNew_missing registry debug st s hfs] at hel
              cases hel
          have hlrelem : elemOf (lookupOrNew registry debug st s) =
              some e.elemId := by
            unfold elemOf
            rw [hel]
            rfl
          have hnot : e.elemId ∉ st.scene :=
            hdisj s (List.mem_cons_self _ _) _ e.elemId hfound hlrelem
          have hrefeq : out.ref = lookupOrNew registry debug st s := by
            rw [hout]
          have hfindSame : ∀ k, alFind st₁.shapeRefsById k =
              alFind st.shapeRefsById k := by
            intro k
            rw [hst₁]
            show alFind (alSet st.shapeRefsById s.id out.ref) k =
              alFind st.shapeRefsById k
            rw [hrefeq]
            exact alSet_find_unchanged st.shapeRefsById s.id _ hfound k
          refine ⟨e.elemId, ?_, ?_, ?_, ?_, ?_⟩
          · rw [hst₁, hout]
            show sceneAdd st.scene e.elemId = st.scene ++ [e.elemId]
            exact sceneAdd_eq_append st.scene e.elemId hnot
          · rw [hrefeq]
            exact hlrelem
          · exact distinct_ext st.shapeRefsById st₁.shapeRefsById hfindSame hdist
          · have hnext : st₁.nextElemId = st.nextElemId := by
              rw [hst₁, hout]
            rw [hnext]
            exact bound_ext st.shapeRefsById st₁.shapeRefsById st.nextElemId
              hfindSame hbound
          · intro s' hs' r i hf he hmem
            rw [hfindSame s'.id] at hf
            have hscene₁ : st₁.scene = st.scene ++ [e.elemId] := by
              rw [hst₁, hout]
              show sceneAdd st.scene e.elemId = st.scene ++ [e.elemId]
              exact sceneAdd_eq_append st.scene e.elemId hnot
            rw [hscene₁] at hmem
            rcases List.mem_append.mp hmem with hm | hm
            · exact hdisj s' (List.mem_cons_of_mem _ hs') r i hf he hm
            · have hi : i = e.elemId := List.mem_singleton.mp hm
              have := hdist s.id s'.id (lookupOrNew registry debug st s) r
                e.elemId hfound hf (fun hcon => hrestne s' hs' hcon.symm) hlrelem
              rw [hi] at he
              exact this he
      obtain ⟨i₀, hscene₁, helem₀, hdist₁, hbound₁, hdisj₁⟩ := hmain
      obtain ⟨es', hscene', hmap'⟩ := ih st₁ hdist₁ hbound₁ hnodup' hdisj₁ st' h₂
      refine ⟨i₀ :: es', ?_, ?_⟩
      · rw [hscene', hscene₁, List.append_assoc]
        rfl
      · rw [List.map_cons, hmap']
        have hfind' : alFind st'.shapeRefsById s.id =
            alFind st₁.shapeRefsById s.id :=
          renderAll_find_untouched registry debug s.id rest st₁ st' false
            hrestne h₂
        have hfind₁ : alFind st₁.shapeRefsById s.id = some out.ref := by
          rw [hst₁]
          exact alFind_alSet_self st.shapeRefsById s.id out.ref
        show attachedElem st' s :: es'.map some = some i₀ :: es'.map some
        unfold attachedElem
        rw [hfind', hfind₁]
        show elemOf out.ref :: es'.map some = some i₀ :: es'.map some
        rw [helem₀]

def propsOrder : EditorProps :=
  { registeredRenderers := ["Button"], selectedDiagram := some exampleDiagram,
    debugMarkers := true }

def passOrder : EditorState := (renderDiagram propsOrder editorInit).1

/-- C7: the prune pass detaches every element owned by any registered ref from
the scene unconditionally; and after a successful reconcile pass from a
well-formed state (scene owned by the refs, refs with distinct element ids
below the counter, flattened ids distinct), the insertion order of the scene
root equals the flattened depth-first order: position by position, the scene
holds exactly the element of the ref registered for the corresponding
flattened shape, with no other ordering signal involved. -/
theorem scene_order_eq_flatten_order (p : EditorProps) (st st' : EditorState)
    (hdoc : st.docBound = true)
    (howned : ∀ i ∈ st.scene, ∃ q ∈ st.shapeRefsById, elemOf q.2 = some i)
    (hdist : DistinctElems st.shapeRefsById)
    (hbound : Bound st.shapeRefsById st.nextElemId)
    (hnodup : ((getFlattenShapes p.selectedDiagram).map (fun s => s.id)).Nodup)
    (hrun : renderDiagram p st = (st', false)) :
    (∀ (live₀ : List String) (st₀ : EditorState) (i : Nat),
      i ∈ (prune live₀ st₀).scene →
      i ∈ st₀.scene ∧ ∀ q ∈ st₀.shapeRefsById, elemOf q.2 ≠ some i) ∧
    (getFlattenShapes p.selectedDiagram).map (fun s => attachedElem st' s) =
      st'.scene.map some := by
  constructor
  · intro live₀ st₀ i h
    unfold prune at h
    rw [pruneList_scene] at h
    obtain ⟨hmem, hall⟩ := List.mem_filter.mp h
    refine ⟨hmem, ?_⟩
    intro q hq
    exact of_decide_eq_true (List.all_eq_true.mp hall q hq)
  · have hrun' : renderAll p.registeredRenderers p.debugMarkers
        (prune ((getFlattenShapes p.selectedDiagram).map (fun s => s.id)) st)
        (getFlattenShapes p.selectedDiagram) = (st', false) := by
      rw [← renderDiagram_bound_eq p st hdoc]
      exact hrun
    have hscene0 : (prune ((getFlattenShapes p.selectedDiagram).map
        (fun s => s.id)) st).scene = [] := by
      rw [List.eq_nil_iff_forall_not_mem]
      intro i hi
      unfold prune at hi
      rw [pruneList_scene] at hi
      obtain ⟨him, hall⟩ := List.mem_filter.mp hi
      obtain ⟨q, hq, helem⟩ := howned i him
      have := of_decide_eq_true (List.all_eq_true.mp hall q hq)
      exact this helem
    have hdistP : DistinctElems (prune ((getFlattenShapes p.selectedDiagram).map
        (fun s => s.id)) st).shapeRefsById := by
      intro k₁ k₂ r₁ r₂ i h₁ h₂ hne he₁
      rw [prune_find_byId] at h₁ h₂
      split at h₁
      · split at h₂
        · exact hdist k₁ k₂ r₁ r₂ i h₁ h₂ hne he₁
        · cases h₂
      · cases h₁
    have hboundP : Bound (prune ((getFlattenShapes p.selectedDiagram).map
        (fun s => s.id)) st).shapeRefsById
        (prune ((getFlattenShapes p.selectedDiagram).map
          (fun s => s.id)) st).nextElemId := by
      rw [prune_nextElemId]
      intro k r i hf he
      rw [prune_find_byId] at hf
      split at hf
      · exact hbound k r i hf he
      · cases hf
    have hdisjP : ∀ s ∈ getFlattenShapes p.selectedDiagram, ∀ (r : ShapeRef)
        (i : Nat),
        alFind (prune ((getFlattenShapes p.selectedDiagram).map
          (fun s => s.id)) st).shapeRefsById s.id = some r →
        elemOf r = some i →
        i ∉ (prune ((getFlattenShapes p.selectedDiagram).map
          (fun s => s.id)) st).scene := by
      intro s _ r i _ _
      rw [hscene0]
      exact List.not_mem_nil i
    obtain ⟨es, hsc, hmap⟩ := renderAll_ordered p.registeredRenderers
      p.debugMarkers (getFlattenShapes p.selectedDiagram) _ hdistP hboundP
      hnodup hdisjP st' hrun'
    rw [hmap, hsc, hscene0, List.nil_append]

/-- Witness for C7: the first pass over the nested example diagram (roots
`[G1, S1]`, `G1.children = [S2, S3]`) paints elements positionally matching
the flattened order `[S2, S3, S1]`. -/
theorem scene_order_eq_flatten_order_w :
    (∀ (live₀ : List String) (st₀ : EditorState) (i : Nat),
      i ∈ (prune live₀ st₀).scene →
      i ∈ st₀.scene ∧ ∀ q ∈ st₀.shapeRefsById, elemOf q.2 ≠ some i) ∧
    (getFlattenShapes propsOrder.selectedDiagram).map
      (fun s => attachedElem passOrder s) = passOrder.scene.map some :=
  scene_order_eq_flatten_order propsOrder editorInit passOrder rfl
    (by intro i hi; simp [editorInit] at hi)
    (by intro k₁ k₂ r₁ r₂ i h₁ h₂ hne he₁; simp [editorInit, alFind] at h₁)
    (by intro k r i hf he; simp [editorInit, alFind] at hf)
    (by decide) (by decide)
